import Mathlib

/-!
Shallow embedding of the GovMatch matching pipeline
(HardFilter / RelevanceFilter / WeightedScorer / Reasoner / Orchestrator)
together with theorems settling the specification claims.

Conventions:
- JS numbers are modelled as exact rationals (all arithmetic in the pipeline
  is exact on the values that occur); timestamps (milliseconds) as integers.
- Nullable fields are Option; JS truthiness on strings treats both
  undefined/null and the empty string as falsy, on numbers it treats 0 as
  falsy (strTruthy / numTruthy below).
- Synchronous exceptions are modelled with Except Unit; external
  service outcomes (OpenAI assistant / per-item completion calls) are
  explicit oracle parameters.
- Date.now() and new Date().getFullYear() are explicit parameters
  (now : Int, in ms, and year : Int).
-/

namespace GovMatch

/-! ### Generic helpers -/

/-- Math.max(0, Math.min(1, q)) -/
def clamp01 (q : ℚ) : ℚ := max 0 (min 1 q)

/-- Math.round(q * 100) / 100 (JS Math.round is floor(x + 1/2)). -/
def round2 (q : ℚ) : ℚ := (Int.floor (q * 100 + 1/2) : ℚ) / 100

/-- Math.round(q) as an integer. -/
def roundInt (q : ℚ) : ℤ := Int.floor (q + 1/2)

/-- JS truthiness of an optional string (undefined and the empty string are falsy). -/
def strTruthy : Option String → Bool
  | none => false
  | some s => !s.isEmpty

/-- JS truthiness of an optional number (undefined and 0 are falsy). -/
def numTruthy : Option ℚ → Bool
  | none => false
  | some v => v != 0

/-- Whether the character list a is a prefix of b. -/
def listPrefixOf : List Char → List Char → Bool
  | [], _ => true
  | _ :: _, [] => false
  | a :: as, b :: bs => a == b && listPrefixOf as bs

/-- Whether the character list needle occurs contiguously inside hay. -/
def listInfixOf (needle : List Char) : List Char → Bool
  | [] => needle.isEmpty
  | c :: rest => listPrefixOf needle (c :: rest) || listInfixOf needle rest

/-- JS String.prototype.includes: strContains s sub is true iff sub occurs in s. -/
def strContains (s sub : String) : Bool := listInfixOf sub.data s.data

/-- Case-insensitive containment (both sides lower-cased, as in the source). -/
def strContainsCI (s sub : String) : Bool := strContains s.toLower sub.toLower

/-- Stable insertion into a list sorted w.r.t. the boolean relation le
(x is placed before the first element y with ¬ le x y). -/
def insertBy (le : α → α → Bool) (x : α) : List α → List α
  | [] => [x]
  | y :: ys => if le x y then x :: y :: ys else y :: insertBy le x ys

/-- Stable sort w.r.t. the boolean relation le; models JS Array.prototype.sort
with a consistent comparator (JS sort is stable, and for a total preorder all
stable sorts agree). -/
def sortBy (le : α → α → Bool) : List α → List α
  | [] => []
  | x :: xs => insertBy le x (sortBy le xs)

/-- Removes duplicates keeping the first occurrence (JS new Set insertion order). -/
def dedupGo (seen : List String) : List String → List String
  | [] => []
  | x :: xs => if x ∈ seen then dedupGo seen xs else x :: dedupGo (x :: seen) xs

/-- Spread of a JS Set built from a list: first occurrences, in order. -/
def dedupFirst (l : List String) : List String := dedupGo [] l

/-- Sequential effectful map over Except: the first error aborts (a thrown
exception inside Array.prototype.map aborts the whole map). -/
def mapE (f : α → Except Unit β) : List α → Except Unit (List β)
  | [] => .ok []
  | x :: xs => do
    let y ← f x
    let ys ← mapE f xs
    .ok (y :: ys)

/-! ### Data model -/

/-- A support-program row as returned by the repository (Prisma), with its provider. -/
structure ProgramWithProvider where
  id : String
  title : String
  description : Option String
  category : Option String
  target : Option String
  amountMin : Option ℚ
  amountMax : Option ℚ
  supportRate : Option ℚ
  region : Option String
  deadline : Option ℤ
  tags : List String
  providerName : String
  providerType : String
  deriving DecidableEq, Repr

/-- A scored candidate (MatchedProgram in the source). -/
structure MatchedProgram where
  id : String
  title : String
  description : String
  category : String
  providerName : String
  providerType : String
  amountMin : Option ℚ
  amountMax : Option ℚ
  supportRate : Option ℚ
  region : Option String
  deadline : Option ℤ
  matchScore : ℚ
  matchReasons : List String
  deriving DecidableEq, Repr

/-- The flat matching request consumed by the pipeline (MatchingRequestDto).
establishedYear is stored parsed (the source applies parseInt where used).
businessPurpose and voucherInterest are optional fields of the DTO. -/
structure MatchingRequest where
  companyName : String
  businessType : String
  businessPurpose : Option String
  establishedYear : ℤ
  employees : String
  annualRevenue : String
  region : Option String
  urgency : String
  targetPrograms : List String
  voucherInterest : Option (List String)
  deriving DecidableEq, Repr

/-- A reasoning-service judgment (MatchingAnalysis in the source). -/
structure MatchingAnalysis where
  matchScore : ℚ
  matchReasons : List String
  confidence : ℚ
  deriving DecidableEq, Repr

/-- Raw, unnormalized judgment data as delivered by the external service
before the clamping performed in OpenAIService. -/
structure RawAnalysis where
  matchScore : ℚ
  matchReasons : List String
  confidence : ℚ
  deriving DecidableEq, Repr

/-! ### ScoringService (WeightedScorer) -/

/-- ScoringService.weights. -/
structure ScoringWeights where
  category : ℚ
  amount : ℚ
  region : ℚ
  deadline : ℚ
  companySize : ℚ

def weights : ScoringWeights :=
  { category := 0.4, amount := 0.25, region := 0.15, deadline := 0.1, companySize := 0.1 }

/-- ScoringService.getRelatedCategories. -/
def getRelatedCategories (targetPrograms : List String) : List String :=
  (if "02" ∈ targetPrograms || "06" ∈ targetPrograms then ["02", "06"] else []) ++
  (if "04" ∈ targetPrograms || "07" ∈ targetPrograms then ["04", "07"] else [])

/-- ScoringService.calculateCategoryScore (requestData.targetPrograms is a
required array, hence always truthy in JS; only the program category can be falsy). -/
def calculateCategoryScore (program : ProgramWithProvider) (req : MatchingRequest) : ℚ :=
  if !strTruthy program.category then 0.5
  else
    let c := program.category.getD ""
    if c ∈ req.targetPrograms then 1.0
    else if c ∈ getRelatedCategories req.targetPrograms then 0.7
    else 0.3

/-- ScoringService.getExpectedAmountRange. -/
def getExpectedAmountRange (req : MatchingRequest) : ℚ × ℚ :=
  let employeeMultiplier : ℚ :=
    if req.employees = "1-9" then 1
    else if req.employees = "10-49" then 2
    else if req.employees = "50-99" then 3
    else if req.employees = "100+" then 4
    else 1
  let revenueMultiplier : ℚ :=
    if req.annualRevenue = "under-1b" then 1
    else if req.annualRevenue = "1b-10b" then 2
    else if req.annualRevenue = "10b-50b" then 3
    else if req.annualRevenue = "over-50b" then 4
    else 1
  let baseAmount : ℚ := 10000000
  let multiplier := employeeMultiplier * revenueMultiplier
  (baseAmount * multiplier * 0.5, baseAmount * multiplier * 3)

/-- ScoringService.calculateAmountScore. -/
def calculateAmountScore (program : ProgramWithProvider) (req : MatchingRequest) : ℚ :=
  if !numTruthy program.amountMin && !numTruthy program.amountMax then 0.8
  else
    let expectedRange := getExpectedAmountRange req
    let score : ℚ := 0.5
    let score :=
      if numTruthy program.amountMin &&
          decide (expectedRange.1 ≤ program.amountMin.getD 0) &&
          decide (program.amountMin.getD 0 ≤ expectedRange.2) then
        score + 0.3
      else score
    let score :=
      if numTruthy program.amountMax &&
          decide (expectedRange.1 ≤ program.amountMax.getD 0) &&
          decide (program.amountMax.getD 0 ≤ expectedRange.2) then
        score + 0.2
      else score
    let score :=
      if numTruthy program.amountMax &&
          decide (program.amountMax.getD 0 < expectedRange.1 * 0.1) then
        score - 0.3
      else score
    max 0 (min 1 score)

/-- ScoringService.getRegionKeyword (shared table with FilteringService.getRegionKeywords). -/
def getRegionKeyword (region : String) : String :=
  if region = "seoul" then "서울"
  else if region = "busan" then "부산"
  else if region = "daegu" then "대구"
  else if region = "incheon" then "인천"
  else if region = "gwangju" then "광주"
  else if region = "daejeon" then "대전"
  else if region = "ulsan" then "울산"
  else if region = "gyeonggi" then "경기"
  else if region = "gangwon" then "강원"
  else region

/-- ScoringService.isNearbyRegion (the computed userKeyword is unused in the source). -/
def isNearbyRegion (userRegion programRegion : String) : Bool :=
  let nearbyRegions : List String :=
    if userRegion = "seoul" then ["경기", "인천"]
    else if userRegion = "gyeonggi" then ["서울", "인천"]
    else if userRegion = "incheon" then ["서울", "경기"]
    else []
  nearbyRegions.any (fun nearby => strContains programRegion nearby)

/-- ScoringService.calculateRegionScore. -/
def calculateRegionScore (program : ProgramWithProvider) (req : MatchingRequest) : ℚ :=
  if !strTruthy program.region then 1.0
  else if !strTruthy req.region then 0.8
  else
    let regionKeyword := getRegionKeyword (req.region.getD "")
    if strContains (program.region.getD "") regionKeyword then 1.0
    else if isNearbyRegion (req.region.getD "") (program.region.getD "") then 0.7
    else 0.3

/-- ScoringService.getUrgencyDays. -/
def getUrgencyDays (urgency : String) : ℚ :=
  if urgency = "immediate" then 30
  else if urgency = "short" then 90
  else if urgency = "medium" then 180
  else if urgency = "long" then 365
  else 90

/-- Math.ceil((t2 - t1) / dayMs): days left until a deadline timestamp. -/
def daysUntil (now deadline : ℤ) : ℤ :=
  Int.ceil (((deadline - now : ℤ) : ℚ) / (1000 * 60 * 60 * 24))

/-- ScoringService.calculateDeadlineScore. -/
def calculateDeadlineScore (program : ProgramWithProvider) (req : MatchingRequest)
    (now : ℤ) : ℚ :=
  match program.deadline with
  | none => 0.8
  | some d =>
    let daysLeft := daysUntil now d
    if daysLeft < 0 then 0
    else
      let urgencyDays := getUrgencyDays req.urgency
      if (daysLeft : ℚ) ≤ urgencyDays then 1.0
      else if (daysLeft : ℚ) ≤ urgencyDays * 2 then 0.8
      else if (daysLeft : ℚ) ≤ urgencyDays * 3 then 0.6
      else 0.4

/-- ScoringService.calculateCompanySizeScore. -/
def calculateCompanySizeScore (program : ProgramWithProvider) (req : MatchingRequest) : ℚ :=
  match program.target with
  | none => 0.8
  | some t0 =>
    let t := t0.toLower
    if req.businessType = "startup" &&
        (strContains t "창업" || strContains t "스타트업" || strContains t "벤처") then 1.0
    else if req.businessType = "individual" &&
        (strContains t "개인" || strContains t "소상공인") then 1.0
    else if req.employees = "1-9" &&
        (strContains t "소기업" || strContains t "소상공인") then 1.0
    else if req.employees = "10-49" &&
        (strContains t "중소기업" || strContains t "중소") then 1.0
    else if req.employees = "50-99" &&
        (strContains t "중견기업" || strContains t "중견") then 1.0
    else if req.employees = "100+" &&
        (strContains t "대기업" || strContains t "대") then 1.0
    else 0.5

/-- The five sub-scores of one program. -/
structure SubScores where
  category : ℚ
  amount : ℚ
  region : ℚ
  deadline : ℚ
  companySize : ℚ

/-- The scores record computed in ScoringService.calculateScores. -/
def subScores (program : ProgramWithProvider) (req : MatchingRequest) (now : ℤ) : SubScores :=
  { category := calculateCategoryScore program req
    amount := calculateAmountScore program req
    region := calculateRegionScore program req
    deadline := calculateDeadlineScore program req now
    companySize := calculateCompanySizeScore program req }

/-- ScoringService.calculateWeightedScore. -/
def calculateWeightedScore (scores : SubScores) : ℚ :=
  scores.category * weights.category +
  scores.amount * weights.amount +
  scores.region * weights.region +
  scores.deadline * weights.deadline +
  scores.companySize * weights.companySize

/-- ScoringService.generateMatchReasons. -/
def generateMatchReasons (program : ProgramWithProvider) (_req : MatchingRequest)
    (scores : SubScores) : List String :=
  let reasons : List String :=
    (if scores.category ≥ 0.9 then ["선택한 지원 분야와 정확히 일치"]
     else if scores.category ≥ 0.7 then ["관련 지원 분야에 해당"] else []) ++
    (if scores.region ≥ 0.9 then ["해당 지역 지원 프로그램"] else []) ++
    (if scores.companySize ≥ 0.9 then ["기업 규모에 적합한 프로그램"] else []) ++
    (if scores.deadline ≥ 0.9 then ["지원 시급성에 맞는 마감일"] else []) ++
    (if scores.amount ≥ 0.8 then ["적절한 지원금액 규모"] else []) ++
    (if numTruthy program.supportRate && decide (0.8 ≤ program.supportRate.getD 0) then
      ["높은 지원율 (" ++ toString (roundInt (program.supportRate.getD 0 * 100)) ++ "%)"]
     else [])
  if reasons.isEmpty then ["기본 조건에 부합하는 프로그램"] else reasons

/-- The per-program body of ScoringService.calculateScores. -/
def scoreProgram (program : ProgramWithProvider) (req : MatchingRequest) (now : ℤ) :
    MatchedProgram :=
  let scores := subScores program req now
  let totalScore := calculateWeightedScore scores
  { id := program.id
    title := program.title
    description := program.description.getD ""
    category := if strTruthy program.category then program.category.getD "" else "OTHER"
    providerName := program.providerName
    providerType := program.providerType
    amountMin := program.amountMin
    amountMax := program.amountMax
    supportRate := program.supportRate
    region := program.region
    deadline := program.deadline
    matchScore := round2 totalScore
    matchReasons := generateMatchReasons program req scores }

/-- Descending comparison on matchScore, as used by the sort comparators. -/
def scoreGe (a b : MatchedProgram) : Bool := decide (b.matchScore ≤ a.matchScore)

/-- ScoringService.calculateScores: score every program, sort by matchScore descending. -/
def calculateScores (programs : List ProgramWithProvider) (req : MatchingRequest)
    (now : ℤ) : List MatchedProgram :=
  sortBy scoreGe (programs.map (fun p => scoreProgram p req now))

/-! ### FilteringService (HardFilter and RelevanceFilter) -/

/-- Category condition of FilteringService.applyHardFilters: added only when
targetPrograms is non-empty; Prisma in-list comparison is false on a null column. -/
def categoryCond (req : MatchingRequest) (p : ProgramWithProvider) : Bool :=
  if !req.targetPrograms.isEmpty then
    match p.category with
    | some c => req.targetPrograms.contains c
    | none => false
  else true

/-- Region condition of FilteringService.applyHardFilters:
OR of a null region (nationwide) and a case-insensitive substring match. -/
def regionCond (req : MatchingRequest) (p : ProgramWithProvider) : Bool :=
  if strTruthy req.region && req.region != some "other" then
    match p.region with
    | none => true
    | some r => strContainsCI r (getRegionKeyword (req.region.getD ""))
  else true

/-- FilteringService.buildTargetConditions: the list of case-insensitive
keywords whose containment in the target text is OR-ed. -/
def targetKeywords (req : MatchingRequest) : List String :=
  (if req.businessType = "startup" then ["창업", "스타트업", "벤처"] else []) ++
  (if req.businessType = "individual" then ["개인", "소상공인"] else []) ++
  (if req.employees = "1-9" then ["소기업", "소상공인"]
   else if req.employees = "10-49" then ["중소기업", "중소"]
   else if req.employees = "50-99" then ["중견기업", "중견"]
   else [])

/-- Target condition of FilteringService.applyHardFilters:
added only when some keyword conditions exist; OR of a null target and the keywords. -/
def targetCond (req : MatchingRequest) (p : ProgramWithProvider) : Bool :=
  if !(targetKeywords req).isEmpty then
    match p.target with
    | none => true
    | some t => (targetKeywords req).any (fun kw => strContainsCI t kw)
  else true

/-- FilteringService.buildDeadlineCondition: OR of a null deadline and a
deadline within the urgency horizon; no condition for an unknown urgency. -/
def deadlineCond (req : MatchingRequest) (now : ℤ) (p : ProgramWithProvider) : Bool :=
  let horizonDays : Option ℤ :=
    if req.urgency = "immediate" then some 30
    else if req.urgency = "short" then some 90
    else if req.urgency = "medium" then some 180
    else if req.urgency = "long" then some 365
    else none
  match horizonDays with
  | none => true
  | some days =>
    match p.deadline with
    | none => true
    | some d => decide (d ≤ now + days * 24 * 60 * 60 * 1000)

/-- The always-added active-programs condition: deadline ≥ now or null. -/
def activeCond (now : ℤ) (p : ProgramWithProvider) : Bool :=
  match p.deadline with
  | none => true
  | some d => decide (now ≤ d)

/-- The conjunction of all where-clause conditions of applyHardFilters. -/
def hardFilterPred (req : MatchingRequest) (now : ℤ) (p : ProgramWithProvider) : Bool :=
  categoryCond req p && regionCond req p && targetCond req p &&
  deadlineCond req now p && activeCond now p

/-- Deadline-ascending ordering used by the repository query
(rolling-deadline items last, per the specified ordering policy). -/
def deadlineAsc (a b : ProgramWithProvider) : Bool :=
  match a.deadline, b.deadline with
  | none, none => true
  | none, some _ => false
  | some _, none => true
  | some x, some y => decide (x ≤ y)

/-- FilteringService.applyHardFilters over an explicit repository contents list. -/
def applyHardFilters (req : MatchingRequest) (now : ℤ)
    (allPrograms : List ProgramWithProvider) : List ProgramWithProvider :=
  sortBy deadlineAsc (allPrograms.filter (hardFilterPred req now))

/-- A character kept by the tokenizer: JS word characters, plus Hangul syllables. -/
def keepChar (c : Char) : Bool :=
  c.isAlphanum || c == '_' || (0xAC00 ≤ c.toNat && c.toNat ≤ 0xD7A3)

/-- Splits a character list into maximal runs of non-whitespace characters
(the effect of replacing the removed characters by spaces and splitting on whitespace). -/
def splitRuns (keep : Char → Bool) : List Char → List String
  | [] => []
  | c :: cs =>
    let rest := splitRuns keep cs
    if keep c then
      match cs, rest with
      | c2 :: _, w :: ws => if keep c2 then (String.mk [c] ++ w) :: ws else String.mk [c] :: rest
      | _, _ => [String.mk [c]]
    else rest

/-- Tokenization shared by both keyword extractors: strip every character that
is neither a word character nor Hangul, split on the gaps. -/
def tokenize (text : String) : List String := splitRuns keepChar text.data

/-- FilteringService.extractKeywords. -/
def extractKeywords (text : String) : List String :=
  let stopWords := ["의", "이", "가", "을", "를", "에", "와", "과", "기반", "통해", "위한", "관련"]
  ((tokenize text).filter (fun w => decide (w.length > 1) && !stopWords.contains w)).take 10

/-- The lexical relevance score of one program against the purpose keywords. -/
def relevanceScore (purposeKeywords : List String) (p : ProgramWithProvider) : ℕ :=
  let title := p.title
  let description := p.description.getD ""
  3 * (purposeKeywords.filter (fun kw => strContainsCI title kw)).length +
  2 * (purposeKeywords.filter (fun kw => strContainsCI description kw)).length +
  (purposeKeywords.map (fun kw => (p.tags.filter (fun t => strContainsCI t kw)).length)).sum

/-- FilteringService.applyEmbeddingFilters (the lexical RelevanceFilter). -/
def applyEmbeddingFilters (programs : List ProgramWithProvider)
    (businessPurpose : Option String) : List ProgramWithProvider :=
  if !strTruthy businessPurpose || programs.isEmpty then programs.take 50
  else
    let purposeKeywords := extractKeywords (businessPurpose.getD "")
    let scored := programs.map (fun p => (p, relevanceScore purposeKeywords p))
    ((sortBy (fun a b => decide (b.2 ≤ a.2)) scored).map (fun x => x.1)).take 50

/-! ### OpenAIService normalization (external judgments) -/

/-- Per-item normalization in OpenAIService.parseAssistantResponse:
0 is falsy in JS, so a raw 0 score / confidence falls back to the default. -/
def normalizeParsedItem (r : RawAnalysis) : MatchingAnalysis :=
  { matchScore := clamp01 (if r.matchScore = 0 then 0.5 else r.matchScore)
    matchReasons := r.matchReasons
    confidence := clamp01 (if r.confidence = 0 then 0.7 else r.confidence) }

/-- OpenAIService.searchAndAnalyzeWithAssistant: either the call chain throws,
or every delivered judgment is normalized as in parseAssistantResponse. -/
def searchAndAnalyzeWithAssistant (tier1 : Except Unit (List RawAnalysis)) :
    Except Unit (List MatchingAnalysis) :=
  tier1.map (fun raws => raws.map normalizeParsedItem)

/-- Result normalization in OpenAIService.analyzeMatching (function-call path):
score clamped; a falsy confidence falls back to 0.8. -/
def normalizeCompletionItem (r : RawAnalysis) : MatchingAnalysis :=
  { matchScore := clamp01 r.matchScore
    matchReasons := r.matchReasons
    confidence := clamp01 (if r.confidence = 0 then 0.8 else r.confidence) }

/-- The per-batch fallback judgment substituted when a batch of
per-item completion calls fails. -/
def failedBatchAnalysis : MatchingAnalysis :=
  { matchScore := 0.5, matchReasons := ["AI 분석 실패로 인한 기본 평가"], confidence := 0.3 }

/-- One batch of OpenAIService.analyzeBatchMatching: Promise.all over the
batch; if any per-item call rejects the whole batch gets the fallback judgment. -/
def processBatch (llm : MatchedProgram → Except Unit RawAnalysis)
    (batch : List MatchedProgram) : List MatchingAnalysis :=
  if batch.all (fun p => (llm p).toBool) then
    batch.map (fun p =>
      match llm p with
      | .ok r => normalizeCompletionItem r
      | .error _ => failedBatchAnalysis)
  else
    batch.map (fun _ => failedBatchAnalysis)

/-- OpenAIService.analyzeBatchMatching: fixed-size batches of 5, results concatenated;
never throws (each batch failure is absorbed locally). -/
def analyzeBatchMatching (llm : MatchedProgram → Except Unit RawAnalysis) :
    List MatchedProgram → List MatchingAnalysis
  | [] => []
  | p1 :: p2 :: p3 :: p4 :: p5 :: rest =>
    processBatch llm [p1, p2, p3, p4, p5] ++ analyzeBatchMatching llm rest
  | ps => processBatch llm ps

/-! ### LlmMatchingService (Reasoner) -/

/-- LlmMatchingService.extractBusinessKeywords. -/
def extractBusinessKeywords (text : String) : List String :=
  let businessKeywords := ["솔루션", "플랫폼", "서비스", "시스템", "기술", "개발", "제조", "생산",
    "판매", "유통", "마케팅", "컨설팅", "교육", "의료", "금융", "물류",
    "AI", "빅데이터", "IoT", "블록체인", "모바일", "웹", "앱", "소프트웨어"]
  let words := (tokenize text).filter (fun w => decide (w.length > 1))
  words.filter (fun word =>
    businessKeywords.any (fun kw =>
      strContains word.toLower kw.toLower || strContains kw.toLower word.toLower))

/-- LlmMatchingService.isSemanticMatch. -/
def isSemanticMatch (word1 word2 : String) : Bool :=
  let synonymGroups : List (List String) :=
    [["AI", "인공지능", "머신러닝"],
     ["개발", "제작", "구축", "구현"],
     ["솔루션", "시스템", "플랫폼"],
     ["서비스", "사업", "비즈니스"],
     ["기술", "테크", "테크놀로지"],
     ["헬스케어", "의료", "건강"],
     ["금융", "fintech", "핀테크"]]
  if word1.toLower = word2.toLower then true
  else
    synonymGroups.any (fun group =>
      group.any (fun synonym => strContains synonym.toLower word1.toLower) &&
      group.any (fun synonym => strContains synonym.toLower word2.toLower))

/-- Result of LlmMatchingService.analyzePurposeAlignment. -/
structure PurposeAlignment where
  score : ℚ
  keyMatches : List String

/-- LlmMatchingService.analyzePurposeAlignment. -/
def analyzePurposeAlignment (businessPurpose : Option String)
    (programDescription : String) : PurposeAlignment :=
  if !strTruthy businessPurpose || programDescription.isEmpty then
    { score := 0.5, keyMatches := [] }
  else
    let purposeKeywords := extractBusinessKeywords (businessPurpose.getD "")
    let descriptionKeywords := extractBusinessKeywords programDescription
    let matchedKws := purposeKeywords.flatMap (fun pk =>
      (descriptionKeywords.filter (fun dk => isSemanticMatch pk dk)).map (fun _ => pk))
    let matchCount := matchedKws.length
    let score := min 1 ((matchCount : ℚ) / (max purposeKeywords.length 1 : ℕ))
    { score := score, keyMatches := dedupFirst matchedKws }

/-- LlmMatchingService.analyzeGrowthStageMatch. -/
def analyzeGrowthStageMatch (program : MatchedProgram) (req : MatchingRequest)
    (year : ℤ) : Option String :=
  let companyAge := year - req.establishedYear
  if companyAge ≤ 3 && program.category == "06" then
    some "초기 스타트업에 최적화된 프로그램"
  else if companyAge > 3 && companyAge ≤ 7 && program.category == "02" then
    some "성장기 기업의 기술개발에 적합"
  else if companyAge > 7 && program.category == "04" then
    some "안정기 기업의 해외진출에 유리"
  else none

/-- LlmMatchingService.estimateFinancialNeed. Accessing .includes on an
undefined businessPurpose throws a TypeError, modelled as Except.error. -/
def estimateFinancialNeed (req : MatchingRequest) : Except Unit ℚ :=
  match req.businessPurpose with
  | none => .error ()
  | some purpose =>
    let baseNeed : ℚ :=
      if req.employees = "1-9" then 50000000
      else if req.employees = "10-49" then 200000000
      else if req.employees = "50-99" then 500000000
      else if req.employees = "100+" then 1000000000
      else 50000000
    let purposeMultiplier : ℚ := if strContains purpose "개발" then 1.5 else 1.0
    .ok (baseNeed * purposeMultiplier)

/-- LlmMatchingService.analyzeEfficiency. -/
def analyzeEfficiency (program : MatchedProgram) (req : MatchingRequest) :
    Except Unit (Option String) :=
  if !numTruthy program.amountMax || !numTruthy program.supportRate then .ok none
  else do
    let expectedNeed ← estimateFinancialNeed req
    let supportAmount := program.amountMax.getD 0 * program.supportRate.getD 0
    if supportAmount ≥ expectedNeed * 0.8 then
      .ok (some "예상 자금 수요의 대부분을 충족 가능")
    else if program.supportRate.getD 0 ≥ 0.8 then
      .ok (some ("높은 지원율로 자부담 최소화 (" ++
        toString (roundInt (program.supportRate.getD 0 * 100)) ++ "%)"))
    else .ok none

/-- LlmMatchingService.enhanceMatchReasons: may throw via analyzeEfficiency. -/
def enhanceMatchReasons (program : MatchedProgram) (req : MatchingRequest)
    (year : ℤ) : Except Unit (List String) := do
  let purposeAlignment := analyzePurposeAlignment req.businessPurpose program.description
  let alignmentReasons :=
    if purposeAlignment.score > 0.7 then
      ["사업 목적과 " ++ toString (roundInt (purposeAlignment.score * 100)) ++ "% 일치"] ++
      (if !purposeAlignment.keyMatches.isEmpty then
        ["핵심 키워드 매칭: " ++ String.intercalate ", " purposeAlignment.keyMatches]
       else [])
    else []
  let growthReasons :=
    match analyzeGrowthStageMatch program req year with
    | some s => [s]
    | none => []
  let efficiency ← analyzeEfficiency program req
  let efficiencyReasons :=
    match efficiency with
    | some s => [s]
    | none => []
  let enhancedReasons := program.matchReasons ++ alignmentReasons ++ growthReasons ++
    efficiencyReasons
  .ok ((dedupFirst enhancedReasons).take 5)

/-- LlmMatchingService.isOptimalForGrowthStage. -/
def isOptimalForGrowthStage (program : MatchedProgram) (req : MatchingRequest) : Bool :=
  (req.businessType == "startup" && program.category == "06") ||
  (req.employees == "1-9" && program.category == "02") ||
  (req.employees == "50-99" && (program.category == "04" || program.category == "07"))

/-- LlmMatchingService.isPerfectUrgencyMatch. -/
def isPerfectUrgencyMatch (program : MatchedProgram) (req : MatchingRequest)
    (now : ℤ) : Bool :=
  match program.deadline with
  | none => req.urgency == "long"
  | some d =>
    let daysLeft := daysUntil now d
    let urgencyDays :=
      if req.urgency = "immediate" then (30 : ℚ)
      else if req.urgency = "short" then 90
      else if req.urgency = "medium" then 180
      else if req.urgency = "long" then 365
      else 90
    decide ((daysLeft : ℚ) ≤ urgencyDays) && decide (urgencyDays * 0.5 ≤ (daysLeft : ℚ))

/-- LlmMatchingService.hasInnovationKeywords. -/
def hasInnovationKeywords (description : String) : Bool :=
  let innovationKeywords := ["혁신", "신기술", "AI", "인공지능", "빅데이터", "IoT", "블록체인",
    "디지털", "스마트", "클라우드", "로봇", "자동화", "첨단"]
  innovationKeywords.any (fun keyword =>
    strContains description.toLower keyword.toLower)

/-- LlmMatchingService.adjustScoreWithLlmLogic: the locally-adjusted score,
clamped to the unit interval. -/
def adjustScoreWithLlmLogic (program : MatchedProgram) (req : MatchingRequest)
    (now : ℤ) : ℚ :=
  let purposeScore := (analyzePurposeAlignment req.businessPurpose program.description).score
  let adjustedScore := program.matchScore + (purposeScore - 0.5) * 0.2
  let adjustedScore :=
    if isOptimalForGrowthStage program req then adjustedScore + 0.1 else adjustedScore
  let adjustedScore :=
    if isPerfectUrgencyMatch program req now then adjustedScore + 0.05 else adjustedScore
  let adjustedScore :=
    if hasInnovationKeywords program.description then adjustedScore + 0.05 else adjustedScore
  clamp01 adjustedScore

/-- LlmMatchingService.applyRuleBasedLogic. -/
def applyRuleBasedLogic (program : MatchedProgram) (req : MatchingRequest)
    (now year : ℤ) : Except Unit MatchedProgram := do
  let enhancedReasons ← enhanceMatchReasons program req year
  let adjustedScore := adjustScoreWithLlmLogic program req now
  .ok { program with matchScore := adjustedScore, matchReasons := enhancedReasons }

/-- LlmMatchingService.fallbackToRuleBasedLogic (Tier 3): rule-enhance every
item, sort descending, keep the top 10. A TypeError inside the map propagates. -/
def fallbackToRuleBasedLogic (programs : List MatchedProgram) (req : MatchingRequest)
    (now year : ℤ) : Except Unit (List MatchedProgram) := do
  let enhancedPrograms ← mapE (fun p => applyRuleBasedLogic p req now year) programs
  .ok ((sortBy scoreGe enhancedPrograms).take 10)

/-- The confidence-gated per-item combination shared by Tiers 1 and 2: a
judgment with confidence above 0.5 overrides score and reasons, anything else
(including a missing judgment) gets the local rule-based enhancement. -/
def enhanceProgramsE (req : MatchingRequest) (now year : ℤ) :
    List MatchedProgram → List MatchingAnalysis → Except Unit (List MatchedProgram)
  | [], _ => .ok []
  | p :: ps, a :: as_ => do
    let x ← if a.confidence > 0.5 then
        .ok { p with matchScore := a.matchScore, matchReasons := a.matchReasons }
      else applyRuleBasedLogic p req now year
    let xs ← enhanceProgramsE req now year ps as_
    .ok (x :: xs)
  | p :: ps, [] => do
    let x ← applyRuleBasedLogic p req now year
    let xs ← enhanceProgramsE req now year ps []
    .ok (x :: xs)

/-- Trace labels for the external/fallback stages the Reasoner goes through. -/
def assistantEv : String := "assistant"

def batchEv : String := "batch"

def ruleEv : String := "rule"

/-- LlmMatchingService.fallbackToBatchAnalysis (Tier 2), instrumented with the
list of stages invoked. The batch analysis itself never throws; a throw in the
enhancement map is caught and answered with the full rule-based fallback. -/
def fallbackToBatchAnalysisT (programs : List MatchedProgram) (req : MatchingRequest)
    (llm : MatchedProgram → Except Unit RawAnalysis) (now year : ℤ) :
    Except Unit (List MatchedProgram) × List String :=
  let analysisResults := analyzeBatchMatching llm programs
  match enhanceProgramsE req now year programs analysisResults with
  | .ok enhancedPrograms => (.ok ((sortBy scoreGe enhancedPrograms).take 10), [batchEv])
  | .error _ => (fallbackToRuleBasedLogic programs req now year, [batchEv, ruleEv])

/-- LlmMatchingService.analyzeFinalMatches, instrumented with the list of
stages invoked. Tier 1 errors are caught by the outer catch, which answers with
the rule-based fallback directly; an empty Tier 1 result falls to Tier 2. -/
def analyzeFinalMatchesT (programs : List MatchedProgram) (req : MatchingRequest)
    (tier1 : Except Unit (List RawAnalysis))
    (llm : MatchedProgram → Except Unit RawAnalysis) (now year : ℤ) :
    Except Unit (List MatchedProgram) × List String :=
  if programs.isEmpty then (.ok [], [])
  else
    match searchAndAnalyzeWithAssistant tier1 with
    | .error _ => (fallbackToRuleBasedLogic programs req now year, [assistantEv, ruleEv])
    | .ok assistantAnalysisResults =>
      if !assistantAnalysisResults.isEmpty then
        let sliced := programs.take (min programs.length assistantAnalysisResults.length)
        match enhanceProgramsE req now year sliced assistantAnalysisResults with
        | .ok enhancedPrograms =>
          (.ok ((sortBy scoreGe enhancedPrograms).take 10), [assistantEv])
        | .error _ =>
          (fallbackToRuleBasedLogic programs req now year, [assistantEv, ruleEv])
      else
        match fallbackToBatchAnalysisT programs req llm now year with
        | (.ok r, tr) => (.ok r, assistantEv :: tr)
        | (.error _, tr) =>
          (fallbackToRuleBasedLogic programs req now year, assistantEv :: (tr ++ [ruleEv]))

/-- LlmMatchingService.analyzeFinalMatches (result component). -/
def analyzeFinalMatches (programs : List MatchedProgram) (req : MatchingRequest)
    (tier1 : Except Unit (List RawAnalysis))
    (llm : MatchedProgram → Except Unit RawAnalysis) (now year : ℤ) :
    Except Unit (List MatchedProgram) :=
  (analyzeFinalMatchesT programs req tier1 llm now year).1

/-! ### MatchingService (Orchestrator) and MatchingController -/

/-- The summary block of a MatchingResult. -/
structure MatchingSummary where
  bestMatch : Option MatchedProgram
  categoryDistribution : List (String × ℕ)
  averageMatchScore : ℚ
  deriving DecidableEq, Repr

/-- MatchingResult. -/
structure MatchingResult where
  matchingId : String
  companyName : String
  totalCandidates : ℕ
  filteredCount : ℕ
  finalMatches : List MatchedProgram
  summary : MatchingSummary
  recommendations : List String
  deriving DecidableEq, Repr

/-- The outbound response envelope (MatchingResponseDto as built by the controller). -/
structure MatchingResponse where
  success : Bool
  message : String
  data : MatchingResult
  deriving DecidableEq, Repr

/-- One increment of the categoryDistribution record built in buildMatchingResult. -/
def bumpCategory : List (String × ℕ) → String → List (String × ℕ)
  | [], c => [(c, 1)]
  | (k, v) :: rest, c => if k = c then (k, v + 1) :: rest else (k, v) :: bumpCategory rest c

/-- MatchingService.calculateAverageScore. -/
def calculateAverageScore (programs : List MatchedProgram) : ℚ :=
  if programs.isEmpty then 0
  else round2 ((programs.map (fun p => p.matchScore)).sum / programs.length)

/-- MatchingService.generateRecommendations. -/
def generateRecommendations (finalList : List MatchedProgram) (now : ℤ) : List String :=
  match finalList with
  | [] => ["조건에 맞는 지원사업이 없습니다."]
  | m :: _ =>
    ["가장 적합한 사업: " ++ m.title] ++
    (if finalList.length > 3 then
      ["총 " ++ toString finalList.length ++ "개의 적합한 사업을 발견했습니다."]
     else []) ++
    (let urgentDeadlines := finalList.filter (fun x =>
        match x.deadline with
        | some d => decide (d - now < 30 * 24 * 60 * 60 * 1000)
        | none => false)
     if !urgentDeadlines.isEmpty then
       [toString urgentDeadlines.length ++ "개 사업이 한 달 내 마감 예정입니다."]
     else [])

/-- MatchingService.buildMatchingResult. -/
def buildMatchingResult (matchingId companyName : String)
    (totalCandidates filteredCount : ℕ) (finalMatches : List MatchedProgram)
    (now : ℤ) : MatchingResult :=
  { matchingId := matchingId
    companyName := companyName
    totalCandidates := totalCandidates
    filteredCount := filteredCount
    finalMatches := finalMatches
    summary :=
      { bestMatch := finalMatches.head?
        categoryDistribution := finalMatches.foldl (fun acc m => bumpCategory acc m.category) []
        averageMatchScore := calculateAverageScore finalMatches }
    recommendations := generateRecommendations finalMatches now }

/-- MatchingService.createEmptyResult. -/
def createEmptyResult (matchingId companyName : String) : MatchingResult :=
  { matchingId := matchingId
    companyName := companyName
    totalCandidates := 0
    filteredCount := 0
    finalMatches := []
    summary := { bestMatch := none, categoryDistribution := [], averageMatchScore := 0 }
    recommendations :=
      ["조건에 맞는 지원사업이 없습니다.",
       "지원 분야나 지역 조건을 조정해보세요.",
       "새로운 지원사업 공고를 기다려보세요."] }

/-- Trace labels for the orchestrator stages. -/
def hardFilterEv : String := "hardFilter"

def embeddingEv : String := "embedding"

def scoringEv : String := "scoring"

def llmEv : String := "llm"

/-- MatchingService.matchPrograms, instrumented with the list of stages invoked.
Its try/catch logs and rethrows, so errors propagate to the controller. -/
def matchProgramsT (req : MatchingRequest) (allPrograms : List ProgramWithProvider)
    (tier1 : Except Unit (List RawAnalysis))
    (llm : MatchedProgram → Except Unit RawAnalysis) (now year : ℤ) :
    Except Unit MatchingResult × List String :=
  let matchingId := "matching_" ++ toString now
  let hardFilteredPrograms := applyHardFilters req now allPrograms
  if hardFilteredPrograms.isEmpty then
    (.ok (createEmptyResult matchingId req.companyName), [hardFilterEv])
  else
    let embeddingFilteredPrograms :=
      applyEmbeddingFilters hardFilteredPrograms req.businessPurpose
    let scoredPrograms := calculateScores embeddingFilteredPrograms req now
    match analyzeFinalMatches (scoredPrograms.take 20) req tier1 llm now year with
    | .ok finalMatches =>
      (.ok (buildMatchingResult matchingId req.companyName hardFilteredPrograms.length
        embeddingFilteredPrograms.length finalMatches now),
       [hardFilterEv, embeddingEv, scoringEv, llmEv])
    | .error e => (.error e, [hardFilterEv, embeddingEv, scoringEv, llmEv])

/-- MatchingService.matchPrograms (result component). -/
def matchPrograms (req : MatchingRequest) (allPrograms : List ProgramWithProvider)
    (tier1 : Except Unit (List RawAnalysis))
    (llm : MatchedProgram → Except Unit RawAnalysis) (now year : ℤ) :
    Except Unit MatchingResult :=
  (matchProgramsT req allPrograms tier1 llm now year).1

/-- The generic failure message of MatchingController.createMatching. -/
def failureMessage : String := "매칭 분석 중 오류가 발생했습니다."

/-- The failure payload built in the controller catch block. -/
def failureResult (req : MatchingRequest) (now : ℤ) : MatchingResult :=
  { matchingId := "error_" ++ toString now
    companyName := req.companyName
    totalCandidates := 0
    filteredCount := 0
    finalMatches := []
    summary := { bestMatch := none, categoryDistribution := [], averageMatchScore := 0 }
    recommendations := ["시스템 오류로 인해 매칭을 완료할 수 없습니다."] }

/-- MatchingController.createMatching: the orchestrator outer boundary. Its pre-try
logging block dereferences the optional voucherInterest field
(matchingData.voucherInterest.join before the try), so an absent field throws a raw
TypeError ahead of the try/catch, modelled as Except.error. Once inside the
try/catch, any pipeline exception is converted to a success=false payload with zero
matches and the generic failure message. -/
def createMatching (req : MatchingRequest) (allPrograms : List ProgramWithProvider)
    (tier1 : Except Unit (List RawAnalysis))
    (llm : MatchedProgram → Except Unit RawAnalysis) (now year : ℤ) :
    Except Unit MatchingResponse :=
  match req.voucherInterest with
  | none => .error ()
  | some _ =>
    match matchPrograms req allPrograms tier1 llm now year with
    | .ok matchingResult =>
      .ok { success := true, message := "매칭 분석이 완료되었습니다.", data := matchingResult }
    | .error _ =>
      .ok { success := false, message := failureMessage, data := failureResult req now }

/-- Descending-by-matchScore sortedness, as a Prop relation. -/
def SortedDesc (l : List MatchedProgram) : Prop :=
  List.Pairwise (fun a b => b.matchScore ≤ a.matchScore) l

/-! ### Concrete fixtures used by witnesses and counterexamples -/

/-- A scored candidate with both a maximum amount and a support rate. -/
def mpFunded : MatchedProgram :=
  { id := "p", title := "t", description := "설명", category := "02",
    providerName := "n", providerType := "g", amountMin := none,
    amountMax := some 5000000, supportRate := some 0.5, region := none,
    deadline := none, matchScore := 0.8, matchReasons := ["기본"] }

/-- A requester profile whose optional purpose text is absent. -/
def reqNoPurpose : MatchingRequest :=
  { companyName := "c", businessType := "corporation", businessPurpose := none,
    establishedYear := 2020, employees := "1-9", annualRevenue := "under-1b",
    region := none, urgency := "short", targetPrograms := ["02"],
    voucherInterest := some [] }

/-- A requester profile with a purpose text. -/
def reqStartup : MatchingRequest :=
  { companyName := "c", businessType := "startup", businessPurpose := some "AI 개발",
    establishedYear := 2021, employees := "1-9", annualRevenue := "under-1b",
    region := some "seoul", urgency := "short", targetPrograms := ["02"],
    voucherInterest := some [] }

/-- A baseline scored candidate. -/
def mpBase : MatchedProgram :=
  { id := "p1", title := "t1", description := "설명", category := "02",
    providerName := "n", providerType := "g", amountMin := none, amountMax := none,
    supportRate := none, region := none, deadline := none, matchScore := 0.5,
    matchReasons := ["기본"] }

/-- A second scored candidate with a distinct id. -/
def mpOther : MatchedProgram :=
  { id := "p2", title := "t2", description := "내용", category := "04",
    providerName := "n", providerType := "g", amountMin := none, amountMax := none,
    supportRate := none, region := none, deadline := none, matchScore := 0.4,
    matchReasons := ["기본"] }

/-- An otherwise well-formed request whose optional voucherInterest field is absent. -/
def reqNoVoucher : MatchingRequest :=
  { companyName := "c", businessType := "startup", businessPurpose := some "AI 개발",
    establishedYear := 2021, employees := "1-9", annualRevenue := "under-1b",
    region := some "seoul", urgency := "short", targetPrograms := ["02"],
    voucherInterest := none }

/-- A repository row that passes the hard filter for reqNoPurpose and carries both a
maximum amount and a support rate. -/
def pwFunded : ProgramWithProvider :=
  { id := "p1", title := "t1", description := some "설명", category := some "02",
    target := none, amountMin := none, amountMax := some 5000000,
    supportRate := some 0.5, region := none, deadline := none, tags := [],
    providerName := "n", providerType := "g" }

/-- A repository row used as the base candidate of amount-score comparisons. -/
def pwBase : ProgramWithProvider :=
  { id := "w9", title := "t", description := none, category := some "02", target := none,
    amountMin := none, amountMax := some 10000000, supportRate := none, region := none,
    deadline := none, tags := [], providerName := "n", providerType := "g" }

/-- A raw high-confidence external judgment. -/
def rawHigh : RawAnalysis :=
  { matchScore := 0.9, matchReasons := ["근거"], confidence := 0.9 }

/-- The candidate mpBase overridden by the normalized judgment rawHigh. -/
def mpHigh : MatchedProgram :=
  { mpBase with matchScore := clamp01 0.9, matchReasons := ["근거"] }

/-! ### Helper lemmas: sorting -/

theorem mem_insertBy {α : Type} (le : α → α → Bool) (x z : α) :
    ∀ l : List α, z ∈ insertBy le x l → z = x ∨ z ∈ l := by
  intro l
  induction l with
  | nil => intro h; simp [insertBy] at h; exact Or.inl h
  | cons y ys ih =>
    intro h
    simp only [insertBy] at h
    by_cases hxy : le x y = true
    · rw [if_pos hxy] at h
      rcases List.mem_cons.mp h with h1 | h1
      · exact Or.inl h1
      · exact Or.inr h1
    · rw [if_neg hxy] at h
      rcases List.mem_cons.mp h with h1 | h1
      · exact Or.inr (by simp [h1])
      · rcases ih h1 with h2 | h2
        · exact Or.inl h2
        · exact Or.inr (List.mem_cons_of_mem _ h2)

theorem mem_sortBy {α : Type} (le : α → α → Bool) (z : α) :
    ∀ l : List α, z ∈ sortBy le l → z ∈ l := by
  intro l
  induction l with
  | nil => intro h; simp [sortBy] at h
  | cons y ys ih =>
    intro h
    simp only [sortBy] at h
    rcases mem_insertBy le y z _ h with h1 | h1
    · simp [h1]
    · exact List.mem_cons_of_mem _ (ih h1)

theorem pairwise_insertBy {α : Type} (le : α → α → Bool)
    (total : ∀ a b, le a b = true ∨ le b a = true)
    (trans : ∀ a b c, le a b = true → le b c = true → le a c = true)
    (x : α) : ∀ l : List α, List.Pairwise (fun a b => le a b = true) l →
    List.Pairwise (fun a b => le a b = true) (insertBy le x l) := by
  intro l
  induction l with
  | nil => intro _; simp [insertBy]
  | cons y ys ih =>
    intro h
    rcases List.pairwise_cons.mp h with ⟨hy, hys⟩
    simp only [insertBy]
    by_cases hxy : le x y = true
    · rw [if_pos hxy]
      refine List.pairwise_cons.mpr ⟨?_, h⟩
      intro z hz
      rcases List.mem_cons.mp hz with h1 | h1
      · rw [h1]; exact hxy
      · exact trans x y z hxy (hy z h1)
    · rw [if_neg hxy]
      refine List.pairwise_cons.mpr ⟨?_, ih hys⟩
      intro z hz
      rcases mem_insertBy le x z ys hz with h1 | h1
      · rw [h1]
        rcases total x y with h2 | h2
        · exact absurd h2 hxy
        · exact h2
      · exact hy z h1

theorem pairwise_sortBy {α : Type} (le : α → α → Bool)
    (total : ∀ a b, le a b = true ∨ le b a = true)
    (trans : ∀ a b c, le a b = true → le b c = true → le a c = true)
    (l : List α) : List.Pairwise (fun a b => le a b = true) (sortBy le l) := by
  induction l with
  | nil => simp [sortBy]
  | cons y ys ih => exact pairwise_insertBy le total trans y _ ih

theorem scoreGe_total (a b : MatchedProgram) : scoreGe a b = true ∨ scoreGe b a = true := by
  simp only [scoreGe, decide_eq_true_eq]
  exact le_total b.matchScore a.matchScore

theorem scoreGe_trans (a b c : MatchedProgram) (h1 : scoreGe a b = true)
    (h2 : scoreGe b c = true) : scoreGe a c = true := by
  simp only [scoreGe, decide_eq_true_eq] at h1 h2 ⊢
  exact le_trans h2 h1

theorem sortedDesc_sortBy (l : List MatchedProgram) : SortedDesc (sortBy scoreGe l) := by
  have h := pairwise_sortBy scoreGe scoreGe_total scoreGe_trans l
  refine List.Pairwise.imp ?_ h
  intro a b hab
  simpa [scoreGe, decide_eq_true_eq] using hab

theorem sortedDesc_take (l : List MatchedProgram) (n : ℕ) (h : SortedDesc l) :
    SortedDesc (l.take n) := by
  exact List.Pairwise.sublist (List.take_sublist n l) h

/-! ### Helper lemmas: score bounds -/

theorem clamp01_nonneg (q : ℚ) : 0 ≤ clamp01 q := le_max_left 0 _

theorem clamp01_le_one (q : ℚ) : clamp01 q ≤ 1 := by
  unfold clamp01
  refine max_le (by norm_num) (min_le_left 1 q)

theorem clamp01_mono {a b : ℚ} (h : a ≤ b) : clamp01 a ≤ clamp01 b := by
  unfold clamp01
  exact max_le_max (le_refl 0) (min_le_min (le_refl 1) h)

theorem round2_bounds (q : ℚ) (h0 : 0 ≤ q) (h1 : q ≤ 1) :
    0 ≤ round2 q ∧ round2 q ≤ 1 := by
  unfold round2
  constructor
  · have hfl : (0 : ℤ) ≤ Int.floor (q * 100 + 1/2) := by
      rw [Int.le_floor]
      push_cast
      linarith
    have : (0 : ℚ) ≤ (Int.floor (q * 100 + 1/2) : ℚ) := by exact_mod_cast hfl
    linarith
  · have hfl : Int.floor (q * 100 + 1/2) ≤ 100 := by
      have hle : (Int.floor (q * 100 + 1/2) : ℚ) ≤ q * 100 + 1/2 := Int.floor_le _
      have : (Int.floor (q * 100 + 1/2) : ℚ) < 101 := by linarith
      exact_mod_cast Int.lt_add_one_iff.mp (by exact_mod_cast this)
    have : (Int.floor (q * 100 + 1/2) : ℚ) ≤ 100 := by exact_mod_cast hfl
    linarith

theorem calculateCategoryScore_bounds (p : ProgramWithProvider) (req : MatchingRequest) :
    0 ≤ calculateCategoryScore p req ∧ calculateCategoryScore p req ≤ 1 := by
  unfold calculateCategoryScore
  dsimp only
  split_ifs <;> norm_num

theorem calculateAmountScore_bounds (p : ProgramWithProvider) (req : MatchingRequest) :
    0 ≤ calculateAmountScore p req ∧ calculateAmountScore p req ≤ 1 := by
  unfold calculateAmountScore
  split_ifs with h
  · norm_num
  · constructor
    · exact le_max_left 0 _
    · exact max_le (by norm_num) (min_le_left 1 _)

theorem calculateRegionScore_bounds (p : ProgramWithProvider) (req : MatchingRequest) :
    0 ≤ calculateRegionScore p req ∧ calculateRegionScore p req ≤ 1 := by
  unfold calculateRegionScore
  dsimp only
  split_ifs <;> norm_num

theorem calculateDeadlineScore_bounds (p : ProgramWithProvider) (req : MatchingRequest)
    (now : ℤ) : 0 ≤ calculateDeadlineScore p req now ∧ calculateDeadlineScore p req now ≤ 1 := by
  unfold calculateDeadlineScore
  cases p.deadline with
  | none => norm_num
  | some d =>
    dsimp only
    split_ifs <;> norm_num

theorem calculateCompanySizeScore_bounds (p : ProgramWithProvider) (req : MatchingRequest) :
    0 ≤ calculateCompanySizeScore p req ∧ calculateCompanySizeScore p req ≤ 1 := by
  unfold calculateCompanySizeScore
  cases p.target with
  | none => norm_num
  | some t =>
    dsimp only
    split_ifs <;> norm_num

theorem calculateWeightedScore_bounds (s : SubScores)
    (hc : 0 ≤ s.category ∧ s.category ≤ 1) (ha : 0 ≤ s.amount ∧ s.amount ≤ 1)
    (hr : 0 ≤ s.region ∧ s.region ≤ 1) (hd : 0 ≤ s.deadline ∧ s.deadline ≤ 1)
    (hs : 0 ≤ s.companySize ∧ s.companySize ≤ 1) :
    0 ≤ calculateWeightedScore s ∧ calculateWeightedScore s ≤ 1 := by
  unfold calculateWeightedScore weights
  obtain ⟨hc0, hc1⟩ := hc
  obtain ⟨ha0, ha1⟩ := ha
  obtain ⟨hr0, hr1⟩ := hr
  obtain ⟨hd0, hd1⟩ := hd
  obtain ⟨hs0, hs1⟩ := hs
  constructor <;> [nlinarith; nlinarith]

theorem scoreProgram_matchScore_bounds (p : ProgramWithProvider) (req : MatchingRequest)
    (now : ℤ) : 0 ≤ (scoreProgram p req now).matchScore ∧
    (scoreProgram p req now).matchScore ≤ 1 := by
  have hw := calculateWeightedScore_bounds (subScores p req now)
    (calculateCategoryScore_bounds p req) (calculateAmountScore_bounds p req)
    (calculateRegionScore_bounds p req) (calculateDeadlineScore_bounds p req now)
    (calculateCompanySizeScore_bounds p req)
  have h := round2_bounds (calculateWeightedScore (subScores p req now)) hw.1 hw.2
  simpa [scoreProgram] using h

/-! ### Helper lemmas: Reasoner invariants -/

theorem exceptOkBind {ε α β : Type} (a : α) (f : α → Except ε β) :
    (Except.ok a >>= f) = f a := rfl

theorem exceptErrorBind {ε α β : Type} (e : ε) (f : α → Except ε β) :
    ((Except.error e : Except ε α) >>= f) = Except.error e := rfl

theorem applyRuleBasedLogic_ok (p : MatchedProgram) (req : MatchingRequest) (now year : ℤ)
    (q : MatchedProgram) (h : applyRuleBasedLogic p req now year = .ok q) :
    q.matchScore = adjustScoreWithLlmLogic p req now ∧ q.id = p.id := by
  unfold applyRuleBasedLogic at h
  cases he : enhanceMatchReasons p req year with
  | error e =>
    rw [he] at h
    simp only [exceptErrorBind] at h
    exact absurd h (by simp)
  | ok rs =>
    rw [he] at h
    simp only [exceptOkBind, Except.ok.injEq] at h
    rw [← h]
    exact ⟨rfl, rfl⟩

theorem adjustScore_bounds (p : MatchedProgram) (req : MatchingRequest) (now : ℤ) :
    0 ≤ adjustScoreWithLlmLogic p req now ∧ adjustScoreWithLlmLogic p req now ≤ 1 := by
  unfold adjustScoreWithLlmLogic
  exact ⟨clamp01_nonneg _, clamp01_le_one _⟩

theorem normalizeParsedItem_bounds (r : RawAnalysis) :
    0 ≤ (normalizeParsedItem r).matchScore ∧ (normalizeParsedItem r).matchScore ≤ 1 := by
  unfold normalizeParsedItem
  exact ⟨clamp01_nonneg _, clamp01_le_one _⟩

theorem normalizeCompletionItem_bounds (r : RawAnalysis) :
    0 ≤ (normalizeCompletionItem r).matchScore ∧ (normalizeCompletionItem r).matchScore ≤ 1 := by
  unfold normalizeCompletionItem
  exact ⟨clamp01_nonneg _, clamp01_le_one _⟩

theorem processBatch_bounds (llm : MatchedProgram → Except Unit RawAnalysis)
    (batch : List MatchedProgram) (a : MatchingAnalysis) (ha : a ∈ processBatch llm batch) :
    0 ≤ a.matchScore ∧ a.matchScore ≤ 1 := by
  unfold processBatch at ha
  split_ifs at ha
  · rcases List.mem_map.mp ha with ⟨p, _, hp⟩
    cases hl : llm p with
    | ok r =>
      rw [hl] at hp
      rw [← hp]
      exact normalizeCompletionItem_bounds r
    | error e =>
      rw [hl] at hp
      rw [← hp]
      unfold failedBatchAnalysis
      norm_num
  · rcases List.mem_map.mp ha with ⟨p, _, hp⟩
    rw [← hp]
    unfold failedBatchAnalysis
    norm_num

theorem analyzeBatchMatching_bounds (llm : MatchedProgram → Except Unit RawAnalysis)
    (ps : List MatchedProgram) (a : MatchingAnalysis)
    (ha : a ∈ analyzeBatchMatching llm ps) : 0 ≤ a.matchScore ∧ a.matchScore ≤ 1 := by
  induction ps using analyzeBatchMatching.induct llm with
  | case1 => simp [analyzeBatchMatching] at ha
  | case2 p1 p2 p3 p4 p5 rest ih =>
    rw [analyzeBatchMatching] at ha
    rcases List.mem_append.mp ha with h1 | h1
    · exact processBatch_bounds llm _ a h1
    · exact ih h1
  | case3 ps h1 h2 =>
    rw [analyzeBatchMatching] at ha
    · exact processBatch_bounds llm _ a ha
    · exact h1
    · exact h2

theorem enhanceProgramsE_ok (req : MatchingRequest) (now year : ℤ) :
    ∀ (ps : List MatchedProgram) (as_ : List MatchingAnalysis) (l : List MatchedProgram),
    enhanceProgramsE req now year ps as_ = .ok l →
    (∀ a ∈ as_, 0 ≤ a.matchScore ∧ a.matchScore ≤ 1) →
    (∀ x ∈ l, (0 ≤ x.matchScore ∧ x.matchScore ≤ 1) ∧ ∃ p ∈ ps, x.id = p.id) := by
  intro ps
  induction ps with
  | nil =>
    intro as_ l h _ x hx
    unfold enhanceProgramsE at h
    simp only [Except.ok.injEq] at h
    rw [← h] at hx
    simp at hx
  | cons p ps ih =>
    intro as_ l h hbnd x hx
    cases as_ with
    | cons a rest =>
      unfold enhanceProgramsE at h
      by_cases hc : a.confidence > 0.5
      · rw [if_pos hc] at h
        simp only [exceptOkBind] at h
        cases ht : enhanceProgramsE req now year ps rest with
        | error e => rw [ht] at h; simp only [exceptErrorBind] at h; simp at h
        | ok xs =>
          rw [ht] at h
          simp only [exceptOkBind, Except.ok.injEq] at h
          rw [← h] at hx
          rcases List.mem_cons.mp hx with h1 | h1
          · subst h1
            refine ⟨⟨?_, ?_⟩, ⟨p, by simp, rfl⟩⟩
            · exact (hbnd a (by simp)).1
            · exact (hbnd a (by simp)).2
          · rcases ih rest xs ht (fun b hb => hbnd b (by simp [hb])) x h1 with ⟨hb, q, hq, hid⟩
            exact ⟨hb, q, by simp [hq], hid⟩
      · rw [if_neg hc] at h
        cases hr : applyRuleBasedLogic p req now year with
        | error e => rw [hr] at h; simp only [exceptErrorBind] at h; simp at h
        | ok y =>
          rw [hr] at h
          simp only [exceptOkBind] at h
          cases ht : enhanceProgramsE req now year ps rest with
          | error e => rw [ht] at h; simp only [exceptErrorBind] at h; simp at h
          | ok xs =>
            rw [ht] at h
            simp only [exceptOkBind, Except.ok.injEq] at h
            rw [← h] at hx
            rcases List.mem_cons.mp hx with h1 | h1
            · rw [h1]
              rcases applyRuleBasedLogic_ok p req now year y hr with ⟨hs, hid⟩
              refine ⟨⟨?_, ?_⟩, ⟨p, by simp, hid⟩⟩
              · rw [hs]; exact (adjustScore_bounds p req now).1
              · rw [hs]; exact (adjustScore_bounds p req now).2
            · rcases ih rest xs ht (fun b hb => hbnd b (by simp [hb])) x h1 with ⟨hb, q, hq, hid⟩
              exact ⟨hb, q, by simp [hq], hid⟩
    | nil =>
      unfold enhanceProgramsE at h
      cases hr : applyRuleBasedLogic p req now year with
      | error e => rw [hr] at h; simp only [exceptErrorBind] at h; simp at h
      | ok y =>
        rw [hr] at h
        simp only [exceptOkBind] at h
        cases ht : enhanceProgramsE req now year ps [] with
        | error e => rw [ht] at h; simp only [exceptErrorBind] at h; simp at h
        | ok xs =>
          rw [ht] at h
          simp only [exceptOkBind, Except.ok.injEq] at h
          rw [← h] at hx
          rcases List.mem_cons.mp hx with h1 | h1
          · rw [h1]
            rcases applyRuleBasedLogic_ok p req now year y hr with ⟨hs, hid⟩
            refine ⟨⟨?_, ?_⟩, ⟨p, by simp, hid⟩⟩
            · rw [hs]; exact (adjustScore_bounds p req now).1
            · rw [hs]; exact (adjustScore_bounds p req now).2
          · rcases ih [] xs ht (by intro b hb; simp at hb) x h1 with ⟨hb, q, hq, hid⟩
            exact ⟨hb, q, by simp [hq], hid⟩

theorem mapE_ok {α β : Type} (f : α → Except Unit β) :
    ∀ (xs : List α) (l : List β), mapE f xs = .ok l →
    ∀ y ∈ l, ∃ x ∈ xs, f x = .ok y := by
  intro xs
  induction xs with
  | nil =>
    intro l h y hy
    unfold mapE at h
    simp only [Except.ok.injEq] at h
    rw [← h] at hy
    simp at hy
  | cons x xs ih =>
    intro l h y hy
    unfold mapE at h
    cases hf : f x with
    | error e => rw [hf] at h; simp only [exceptErrorBind] at h; simp at h
    | ok b =>
      rw [hf] at h
      simp only [exceptOkBind] at h
      cases ht : mapE f xs with
      | error e => rw [ht] at h; simp only [exceptErrorBind] at h; simp at h
      | ok bs =>
        rw [ht] at h
        simp only [exceptOkBind, Except.ok.injEq] at h
        rw [← h] at hy
        rcases List.mem_cons.mp hy with h1 | h1
        · subst h1; exact ⟨x, by simp, hf⟩
        · rcases ih bs ht y h1 with ⟨x2, hx2, hfx2⟩
          exact ⟨x2, by simp [hx2], hfx2⟩

/-- The sort-then-take-10 finalization preserves score bounds, sortedness and the
length cap. -/
theorem finalize_invariants (l : List MatchedProgram)
    (hb : ∀ x ∈ l, 0 ≤ x.matchScore ∧ x.matchScore ≤ 1) :
    ((sortBy scoreGe l).take 10).length ≤ 10 ∧
    SortedDesc ((sortBy scoreGe l).take 10) ∧
    (∀ x ∈ (sortBy scoreGe l).take 10, 0 ≤ x.matchScore ∧ x.matchScore ≤ 1) := by
  refine ⟨?_, ?_, ?_⟩
  · rw [List.length_take]
    exact min_le_left 10 _
  · exact sortedDesc_take _ 10 (sortedDesc_sortBy l)
  · intro x hx
    exact hb x (mem_sortBy scoreGe x l (List.mem_of_mem_take hx))

theorem fallbackToRuleBasedLogic_ok (programs : List MatchedProgram)
    (req : MatchingRequest) (now year : ℤ) (l : List MatchedProgram)
    (h : fallbackToRuleBasedLogic programs req now year = .ok l) :
    l.length ≤ 10 ∧ SortedDesc l ∧ ∀ x ∈ l, 0 ≤ x.matchScore ∧ x.matchScore ≤ 1 := by
  unfold fallbackToRuleBasedLogic at h
  cases hm : mapE (fun p => applyRuleBasedLogic p req now year) programs with
  | error e => rw [hm] at h; simp only [exceptErrorBind] at h; simp at h
  | ok enhanced =>
    rw [hm] at h
    simp only [exceptOkBind, Except.ok.injEq] at h
    have hb : ∀ x ∈ enhanced, 0 ≤ x.matchScore ∧ x.matchScore ≤ 1 := by
      intro x hx
      rcases mapE_ok _ programs enhanced hm x hx with ⟨p, _, hp⟩
      rcases applyRuleBasedLogic_ok p req now year x hp with ⟨hs, _⟩
      rw [hs]
      exact adjustScore_bounds p req now
    rw [← h]
    exact finalize_invariants enhanced hb

theorem fallbackToBatchAnalysisT_ok (programs : List MatchedProgram)
    (req : MatchingRequest) (llm : MatchedProgram → Except Unit RawAnalysis)
    (now year : ℤ) (l : List MatchedProgram)
    (h : (fallbackToBatchAnalysisT programs req llm now year).1 = .ok l) :
    l.length ≤ 10 ∧ SortedDesc l ∧ ∀ x ∈ l, 0 ≤ x.matchScore ∧ x.matchScore ≤ 1 := by
  unfold fallbackToBatchAnalysisT at h
  dsimp only at h
  cases he : enhanceProgramsE req now year programs (analyzeBatchMatching llm programs) with
  | ok enhanced =>
    rw [he] at h
    simp only [Except.ok.injEq] at h
    have hb : ∀ x ∈ enhanced, 0 ≤ x.matchScore ∧ x.matchScore ≤ 1 := by
      intro x hx
      exact (enhanceProgramsE_ok req now year programs _ enhanced he
        (fun a ha => analyzeBatchMatching_bounds llm programs a ha) x hx).1
    rw [← h]
    exact finalize_invariants enhanced hb
  | error e =>
    rw [he] at h
    exact fallbackToRuleBasedLogic_ok programs req now year l h

theorem fallbackToBatchAnalysisT_trace (programs : List MatchedProgram)
    (req : MatchingRequest) (llm : MatchedProgram → Except Unit RawAnalysis)
    (now year : ℤ) :
    (fallbackToBatchAnalysisT programs req llm now year).2 = [batchEv] ∨
    (fallbackToBatchAnalysisT programs req llm now year).2 = [batchEv, ruleEv] := by
  unfold fallbackToBatchAnalysisT
  dsimp only
  split
  · exact Or.inl rfl
  · exact Or.inr rfl

theorem fallbackToBatchAnalysisT_trace_error (programs : List MatchedProgram)
    (req : MatchingRequest) (llm : MatchedProgram → Except Unit RawAnalysis)
    (now year : ℤ) (e : Unit)
    (he : enhanceProgramsE req now year programs (analyzeBatchMatching llm programs) =
      .error e) :
    (fallbackToBatchAnalysisT programs req llm now year).2 = [batchEv, ruleEv] := by
  unfold fallbackToBatchAnalysisT
  dsimp only
  rw [he]

/-! ### Claim theorems -/

/-- C7: for every candidate and profile, the WeightedScorer's composite score equals
0.40·category + 0.25·amount + 0.15·region + 0.10·deadline + 0.10·companySize, each of
the five sub-scores lies in the unit interval, and the resulting matchScore lies in
the unit interval. -/
theorem weightedScorer_composite (p : ProgramWithProvider) (req : MatchingRequest)
    (now : ℤ) :
    (0 ≤ (subScores p req now).category ∧ (subScores p req now).category ≤ 1) ∧
    (0 ≤ (subScores p req now).amount ∧ (subScores p req now).amount ≤ 1) ∧
    (0 ≤ (subScores p req now).region ∧ (subScores p req now).region ≤ 1) ∧
    (0 ≤ (subScores p req now).deadline ∧ (subScores p req now).deadline ≤ 1) ∧
    (0 ≤ (subScores p req now).companySize ∧ (subScores p req now).companySize ≤ 1) ∧
    calculateWeightedScore (subScores p req now) =
      0.40 * (subScores p req now).category + 0.25 * (subScores p req now).amount +
      0.15 * (subScores p req now).region + 0.10 * (subScores p req now).deadline +
      0.10 * (subScores p req now).companySize ∧
    (0 ≤ (scoreProgram p req now).matchScore ∧ (scoreProgram p req now).matchScore ≤ 1) := by
  refine ⟨calculateCategoryScore_bounds p req, calculateAmountScore_bounds p req,
    calculateRegionScore_bounds p req, calculateDeadlineScore_bounds p req now,
    calculateCompanySizeScore_bounds p req, ?_, scoreProgram_matchScore_bounds p req now⟩
  unfold calculateWeightedScore weights
  ring

/-- C3 counterexample: when the requester's region is absent but the candidate has a
region, the region sub-score is 0.8, not 1.0 as the claim states. -/
theorem regionScore_requesterAbsent_counterexample :
    calculateRegionScore
      { id := "p", title := "t", description := none, category := none, target := none,
        amountMin := none, amountMax := none, supportRate := none, region := some "부산",
        deadline := none, tags := [], providerName := "n", providerType := "g" }
      { companyName := "c", businessType := "corporation", businessPurpose := none,
        establishedYear := 2020, employees := "1-9", annualRevenue := "under-1b",
        region := none, urgency := "short", targetPrograms := [], voucherInterest := some [] }
      ≠ 1 := by
  with_unfolding_all decide

/-- C3 (amended): the region sub-score is 1.0 when the candidate's region is absent
(nationwide); 0.8 when the candidate has a region but the requester's region is
absent; 1.0 on a region-keyword match; 0.7 when the candidate's region is in the
fixed nearby-region table for the requester's region; and 0.3 otherwise. -/
theorem regionScore_cases (p : ProgramWithProvider) (req : MatchingRequest) :
    (strTruthy p.region = false → calculateRegionScore p req = 1) ∧
    (strTruthy p.region = true → strTruthy req.region = false →
      calculateRegionScore p req = 0.8) ∧
    (strTruthy p.region = true → strTruthy req.region = true →
      strContains (p.region.getD "") (getRegionKeyword (req.region.getD "")) = true →
      calculateRegionScore p req = 1) ∧
    (strTruthy p.region = true → strTruthy req.region = true →
      strContains (p.region.getD "") (getRegionKeyword (req.region.getD "")) = false →
      isNearbyRegion (req.region.getD "") (p.region.getD "") = true →
      calculateRegionScore p req = 0.7) ∧
    (strTruthy p.region = true → strTruthy req.region = true →
      strContains (p.region.getD "") (getRegionKeyword (req.region.getD "")) = false →
      isNearbyRegion (req.region.getD "") (p.region.getD "") = false →
      calculateRegionScore p req = 0.3) := by
  refine ⟨?_, ?_, ?_, ?_, ?_⟩
  · intro h1
    norm_num [calculateRegionScore, h1]
  · intro h1 h2
    norm_num [calculateRegionScore, h1, h2]
  · intro h1 h2 h3
    norm_num [calculateRegionScore, h1, h2, h3]
  · intro h1 h2 h3 h4
    norm_num [calculateRegionScore, h1, h2, h3, h4]
  · intro h1 h2 h3 h4
    norm_num [calculateRegionScore, h1, h2, h3, h4]

/-- C3 witness: the amended case split evaluated at two concrete inputs, with every
hypothesis discharged at those inputs. -/
theorem regionScore_cases_witness :
    calculateRegionScore
      { id := "p1", title := "t", description := none, category := none, target := none,
        amountMin := none, amountMax := none, supportRate := none, region := none,
        deadline := none, tags := [], providerName := "n", providerType := "g" }
      { companyName := "c", businessType := "corporation", businessPurpose := none,
        establishedYear := 2020, employees := "1-9", annualRevenue := "under-1b",
        region := some "seoul", urgency := "short", targetPrograms := [],
        voucherInterest := some [] } = 1 ∧
    calculateRegionScore
      { id := "p2", title := "t", description := none, category := none, target := none,
        amountMin := none, amountMax := none, supportRate := none, region := some "경기",
        deadline := none, tags := [], providerName := "n", providerType := "g" }
      { companyName := "c", businessType := "corporation", businessPurpose := none,
        establishedYear := 2020, employees := "1-9", annualRevenue := "under-1b",
        region := some "seoul", urgency := "short", targetPrograms := [],
        voucherInterest := some [] } = 0.7 := by
  constructor
  · exact (regionScore_cases _ _).1 (by decide)
  · exact (regionScore_cases _ _).2.2.2.1 (by decide) (by decide) (by decide) (by decide)

/-- C8: the HardFilter never excludes a candidate solely because its region,
eligibility-target text, or deadline is null: each of the region, target and
deadline conditions (and the always-active condition) accepts the null case. -/
theorem hardFilter_null_inclusive (req : MatchingRequest) (now : ℤ)
    (p : ProgramWithProvider) :
    (p.region = none → regionCond req p = true) ∧
    (p.target = none → targetCond req p = true) ∧
    (p.deadline = none → deadlineCond req now p = true ∧ activeCond now p = true) := by
  refine ⟨?_, ?_, ?_⟩
  · intro h
    unfold regionCond
    rw [h]
    split_ifs <;> rfl
  · intro h
    unfold targetCond
    rw [h]
    split_ifs <;> rfl
  · intro h
    constructor
    · unfold deadlineCond
      rw [h]
      dsimp only
      split <;> rfl
    · unfold activeCond
      rw [h]

/-- C8 witness: a candidate with null region, target and deadline passes all four
per-field conditions, for a concrete requester profile. -/
theorem hardFilter_null_inclusive_witness :
    regionCond
      { companyName := "c", businessType := "startup", businessPurpose := some "AI 개발",
        establishedYear := 2021, employees := "1-9", annualRevenue := "under-1b",
        region := some "seoul", urgency := "immediate", targetPrograms := ["02"],
        voucherInterest := some [] }
      { id := "w", title := "t", description := none, category := some "02", target := none,
        amountMin := none, amountMax := none, supportRate := none, region := none,
        deadline := none, tags := [], providerName := "n", providerType := "g" } = true ∧
    targetCond
      { companyName := "c", businessType := "startup", businessPurpose := some "AI 개발",
        establishedYear := 2021, employees := "1-9", annualRevenue := "under-1b",
        region := some "seoul", urgency := "immediate", targetPrograms := ["02"],
        voucherInterest := some [] }
      { id := "w", title := "t", description := none, category := some "02", target := none,
        amountMin := none, amountMax := none, supportRate := none, region := none,
        deadline := none, tags := [], providerName := "n", providerType := "g" } = true ∧
    deadlineCond
      { companyName := "c", businessType := "startup", businessPurpose := some "AI 개발",
        establishedYear := 2021, employees := "1-9", annualRevenue := "under-1b",
        region := some "seoul", urgency := "immediate", targetPrograms := ["02"],
        voucherInterest := some [] } 1700000000000
      { id := "w", title := "t", description := none, category := some "02", target := none,
        amountMin := none, amountMax := none, supportRate := none, region := none,
        deadline := none, tags := [], providerName := "n", providerType := "g" } = true ∧
    activeCond 1700000000000
      { id := "w", title := "t", description := none, category := some "02", target := none,
        amountMin := none, amountMax := none, supportRate := none, region := none,
        deadline := none, tags := [], providerName := "n", providerType := "g" } = true := by
  have h := hardFilter_null_inclusive
    { companyName := "c", businessType := "startup", businessPurpose := some "AI 개발",
      establishedYear := 2021, employees := "1-9", annualRevenue := "under-1b",
      region := some "seoul", urgency := "immediate", targetPrograms := ["02"],
      voucherInterest := some [] } 1700000000000
    { id := "w", title := "t", description := none, category := some "02", target := none,
      amountMin := none, amountMax := none, supportRate := none, region := none,
      deadline := none, tags := [], providerName := "n", providerType := "g" }
  exact ⟨h.1 rfl, h.2.1 rfl, (h.2.2 rfl).1, (h.2.2 rfl).2⟩

/-- C5: contrary to the never-throws contract, the Tier 3 rule-based path throws when
the profile's optional purpose text is absent and a candidate has both a maximum
amount and a support rate: estimateFinancialNeed dereferences the absent purpose
text. Evaluated here at a concrete failing input, for the direct Tier 3 entry point
and for the whole Reasoner with both external tiers failing. -/
theorem tier3_throws_on_absent_purpose :
    fallbackToRuleBasedLogic
      [{ id := "p", title := "t", description := "설명", category := "02",
         providerName := "n", providerType := "g", amountMin := none,
         amountMax := some 5000000, supportRate := some 0.5, region := none,
         deadline := none, matchScore := 0.8, matchReasons := ["기본"] }]
      { companyName := "c", businessType := "corporation", businessPurpose := none,
        establishedYear := 2020, employees := "1-9", annualRevenue := "under-1b",
        region := none, urgency := "short", targetPrograms := ["02"],
        voucherInterest := some [] } 0 2025 = .error () ∧
    analyzeFinalMatches
      [{ id := "p", title := "t", description := "설명", category := "02",
         providerName := "n", providerType := "g", amountMin := none,
         amountMax := some 5000000, supportRate := some 0.5, region := none,
         deadline := none, matchScore := 0.8, matchReasons := ["기본"] }]
      { companyName := "c", businessType := "corporation", businessPurpose := none,
        establishedYear := 2020, employees := "1-9", annualRevenue := "under-1b",
        region := none, urgency := "short", targetPrograms := ["02"],
        voucherInterest := some [] } (.error ()) (fun _ => .error ()) 0 2025 = .error () := by
  constructor
  · with_unfolding_all rfl
  · with_unfolding_all rfl

/-- When the optional voucherInterest field is present, the controller's try/catch
converts every pipeline error into the structured success=false, zero-match,
generic-message response. -/
theorem controller_catch_converts (req : MatchingRequest)
    (allPrograms : List ProgramWithProvider) (tier1 : Except Unit (List RawAnalysis))
    (llm : MatchedProgram → Except Unit RawAnalysis) (now year : ℤ)
    (vi : List String) (hvi : req.voucherInterest = some vi) (e : Unit)
    (h : matchPrograms req allPrograms tier1 llm now year = .error e) :
    createMatching req allPrograms tier1 llm now year =
      .ok { success := false, message := failureMessage, data := failureResult req now } := by
  unfold createMatching
  rw [hvi, h]

/-- C1: the boundary is not exception-proof. First conjunct: on an otherwise valid
request whose optional voucherInterest is simply absent, the controller's pre-try
logging dereferences the field and a raw TypeError escapes the boundary, so there is
no response at all — refuting the no-raw-exception clause. Second conjunct: when the
field is present, a pipeline exception (here the Tier 3 absent-purpose throw with all
external calls failing) is converted by the catch into the structured success=false,
zero-match, generic-message response, as the claim and the spec intend. -/
theorem controller_boundary_raw_escape :
    createMatching reqNoVoucher [] (.error ()) (fun _ => .error ()) 0 2025 =
      .error () ∧
    createMatching reqNoPurpose [pwFunded] (.error ()) (fun _ => .error ()) 0 2025 =
      .ok { success := false, message := failureMessage,
            data := failureResult reqNoPurpose 0 } ∧
    (failureResult reqNoPurpose 0).finalMatches = [] := by
  refine ⟨rfl, ?_, rfl⟩
  with_unfolding_all rfl

/-- C6: when the HardFilter output is empty, the Orchestrator answers with the
fixed empty result (no matches, zero stage counts) and invokes neither the
RelevanceFilter, the WeightedScorer nor the Reasoner. -/
theorem orchestrator_empty_shortcircuit (req : MatchingRequest)
    (allPrograms : List ProgramWithProvider) (tier1 : Except Unit (List RawAnalysis))
    (llm : MatchedProgram → Except Unit RawAnalysis) (now year : ℤ)
    (h : applyHardFilters req now allPrograms = []) :
    matchPrograms req allPrograms tier1 llm now year =
      .ok (createEmptyResult ("matching_" ++ toString now) req.companyName) ∧
    (createEmptyResult ("matching_" ++ toString now) req.companyName).finalMatches = [] ∧
    (createEmptyResult ("matching_" ++ toString now) req.companyName).totalCandidates = 0 ∧
    (createEmptyResult ("matching_" ++ toString now) req.companyName).filteredCount = 0 ∧
    (matchProgramsT req allPrograms tier1 llm now year).2 = [hardFilterEv] ∧
    embeddingEv ∉ (matchProgramsT req allPrograms tier1 llm now year).2 ∧
    scoringEv ∉ (matchProgramsT req allPrograms tier1 llm now year).2 ∧
    llmEv ∉ (matchProgramsT req allPrograms tier1 llm now year).2 := by
  have hT : matchProgramsT req allPrograms tier1 llm now year =
      (.ok (createEmptyResult ("matching_" ++ toString now) req.companyName),
       [hardFilterEv]) := by
    unfold matchProgramsT
    rw [h]
    rfl
  have h2 : (matchProgramsT req allPrograms tier1 llm now year).2 = [hardFilterEv] := by
    rw [hT]
  refine ⟨?_, rfl, rfl, rfl, h2, ?_, ?_, ?_⟩
  · unfold matchPrograms
    rw [hT]
  · rw [h2]; decide
  · rw [h2]; decide
  · rw [h2]; decide

/-- C6 witness: the shortcut evaluated on an empty repository. -/
theorem orchestrator_empty_shortcircuit_witness :
    matchPrograms
      { companyName := "c", businessType := "startup", businessPurpose := some "AI 개발",
        establishedYear := 2021, employees := "1-9", annualRevenue := "under-1b",
        region := some "seoul", urgency := "short", targetPrograms := ["02"],
        voucherInterest := some [] } [] (.error ()) (fun _ => .error ()) 7 2025 =
      .ok (createEmptyResult ("matching_" ++ toString (7 : ℤ)) "c") ∧
    (matchProgramsT
      { companyName := "c", businessType := "startup", businessPurpose := some "AI 개발",
        establishedYear := 2021, employees := "1-9", annualRevenue := "under-1b",
        region := some "seoul", urgency := "short", targetPrograms := ["02"],
        voucherInterest := some [] } [] (.error ()) (fun _ => .error ()) 7 2025).2 =
      [hardFilterEv] := by
  have h := orchestrator_empty_shortcircuit
    { companyName := "c", businessType := "startup", businessPurpose := some "AI 개발",
      establishedYear := 2021, employees := "1-9", annualRevenue := "under-1b",
      region := some "seoul", urgency := "short", targetPrograms := ["02"],
      voucherInterest := some [] } [] (.error ()) (fun _ => .error ()) 7 2025 rfl
  exact ⟨h.1, h.2.2.2.2.1⟩

/-- C4: every successfully returned Reasoner result list has length at most 10, is
sorted descending by matchScore, and every element's matchScore lies in the unit
interval — uniformly over the Tier 1, Tier 2 and Tier 3 result paths (all oracle
outcomes). -/
theorem reasoner_output_invariants (programs : List MatchedProgram)
    (req : MatchingRequest) (tier1 : Except Unit (List RawAnalysis))
    (llm : MatchedProgram → Except Unit RawAnalysis) (now year : ℤ)
    (l : List MatchedProgram)
    (h : analyzeFinalMatches programs req tier1 llm now year = .ok l) :
    l.length ≤ 10 ∧ SortedDesc l ∧ ∀ x ∈ l, 0 ≤ x.matchScore ∧ x.matchScore ≤ 1 := by
  unfold analyzeFinalMatches analyzeFinalMatchesT at h
  split at h
  · dsimp only at h
    simp only [Except.ok.injEq] at h
    rw [← h]
    refine ⟨by simp, by simp [SortedDesc], by simp⟩
  · split at h
    case _ e heq =>
      dsimp only at h
      exact fallbackToRuleBasedLogic_ok programs req now year l h
    case _ res heq =>
      have hres : ∀ a ∈ res, 0 ≤ a.matchScore ∧ a.matchScore ≤ 1 := by
        cases tier1 with
        | error e => simp [searchAndAnalyzeWithAssistant, Except.map] at heq
        | ok raws =>
          simp only [searchAndAnalyzeWithAssistant, Except.map, Except.ok.injEq] at heq
          intro a ha
          rw [← heq] at ha
          rcases List.mem_map.mp ha with ⟨r0, _, hr0⟩
          rw [← hr0]
          exact normalizeParsedItem_bounds r0
      split at h
      · dsimp only at h
        split at h
        case _ enhanced he =>
          dsimp only at h
          simp only [Except.ok.injEq] at h
          have hb : ∀ x ∈ enhanced, 0 ≤ x.matchScore ∧ x.matchScore ≤ 1 := by
            intro x hx
            exact (enhanceProgramsE_ok req now year _ _ enhanced he hres x hx).1
          rw [← h]
          exact finalize_invariants enhanced hb
        case _ e2 he =>
          dsimp only at h
          exact fallbackToRuleBasedLogic_ok programs req now year l h
      · split at h
        case _ r tr hfb =>
          dsimp only at h
          simp only [Except.ok.injEq] at h
          rw [← h]
          exact fallbackToBatchAnalysisT_ok programs req llm now year r (by rw [hfb])
        case _ e2 tr hfb =>
          dsimp only at h
          exact fallbackToRuleBasedLogic_ok programs req now year l h

/-- C4 witness: a concrete Tier 1 run returning one high-confidence judgment; the
invariants hold for the evaluated output list. -/
theorem reasoner_output_invariants_witness :
    analyzeFinalMatches [mpBase] reqStartup (.ok [rawHigh]) (fun _ => .error ()) 0 2025 =
      .ok [mpHigh] ∧
    ([mpHigh].length ≤ 10 ∧ SortedDesc [mpHigh] ∧
      ∀ x ∈ [mpHigh], 0 ≤ x.matchScore ∧ x.matchScore ≤ 1) := by
  have heval : analyzeFinalMatches [mpBase] reqStartup (.ok [rawHigh])
      (fun _ => .error ()) 0 2025 = .ok [mpHigh] := by
    with_unfolding_all rfl
  exact ⟨heval, reasoner_output_invariants _ _ _ _ _ _ _ heval⟩

/-- C2 counterexample: at a concrete input where Tier 1 raises, the Reasoner goes
directly to the rule-based Tier 3 and the Tier 2 batch path is never invoked —
refuting the claim that Tier 2 is attempted whenever Tier 1 raises. -/
theorem tier2_skipped_on_tier1_error_counterexample :
    batchEv ∉
      (analyzeFinalMatchesT [mpBase] reqStartup (.error ()) (fun _ => .error ())
        0 2025).2 ∧
    ruleEv ∈
      (analyzeFinalMatchesT [mpBase] reqStartup (.error ()) (fun _ => .error ())
        0 2025).2 := by
  constructor
  · with_unfolding_all decide
  · with_unfolding_all decide

/-- C2 (amended): Tier 2 is attempted iff Tier 1 completes without error and returns
an empty result; when Tier 1 raises, the Reasoner skips Tier 2 and goes directly to
Tier 3 (rule-based); and when the Tier 2 enhancement raises, Tier 3 is triggered. -/
theorem tier_fallback_structure (programs : List MatchedProgram) (req : MatchingRequest)
    (tier1 : Except Unit (List RawAnalysis))
    (llm : MatchedProgram → Except Unit RawAnalysis) (now year : ℤ)
    (hne : programs ≠ []) :
    (batchEv ∈ (analyzeFinalMatchesT programs req tier1 llm now year).2 ↔
      tier1 = .ok []) ∧
    (∀ e, tier1 = .error e →
      ruleEv ∈ (analyzeFinalMatchesT programs req tier1 llm now year).2 ∧
      batchEv ∉ (analyzeFinalMatchesT programs req tier1 llm now year).2) ∧
    (tier1 = .ok [] → ∀ e,
      enhanceProgramsE req now year programs (analyzeBatchMatching llm programs) =
        .error e →
      ruleEv ∈ (analyzeFinalMatchesT programs req tier1 llm now year).2) := by
  have hpe : programs.isEmpty = false := by simp [List.isEmpty_iff, hne]
  cases tier1 with
  | error e0 =>
    have ht : (analyzeFinalMatchesT programs req (.error e0) llm now year).2 =
        [assistantEv, ruleEv] := by
      unfold analyzeFinalMatchesT
      rw [hpe]
      simp only [Bool.false_eq_true, if_false, searchAndAnalyzeWithAssistant, Except.map]
    refine ⟨?_, ?_, ?_⟩
    · rw [ht]
      constructor
      · intro hb
        exact absurd hb (by decide)
      · intro hok
        simp at hok
    · intro e he
      rw [ht]
      exact ⟨by decide, by decide⟩
    · intro hok
      simp at hok
  | ok raws =>
    cases raws with
    | nil =>
      rcases hfb : fallbackToBatchAnalysisT programs req llm now year with ⟨res, tr⟩
      have htr : tr = [batchEv] ∨ tr = [batchEv, ruleEv] := by
        have := fallbackToBatchAnalysisT_trace programs req llm now year
        rw [hfb] at this
        exact this
      have ht : (analyzeFinalMatchesT programs req (.ok []) llm now year).2 =
          assistantEv :: tr ∨
          (analyzeFinalMatchesT programs req (.ok []) llm now year).2 =
          assistantEv :: (tr ++ [ruleEv]) := by
        unfold analyzeFinalMatchesT
        rw [hpe, hfb]
        simp only [Bool.false_eq_true, if_false, searchAndAnalyzeWithAssistant, Except.map]
        cases res with
        | ok r => exact Or.inl rfl
        | error e2 => exact Or.inr rfl
      have hbmem : batchEv ∈ (analyzeFinalMatchesT programs req (.ok []) llm now year).2 := by
        rcases ht with h | h <;> rw [h] <;> rcases htr with h2 | h2 <;> rw [h2] <;> decide
      refine ⟨⟨fun _ => rfl, fun _ => hbmem⟩, ?_, ?_⟩
      · intro e he
        simp at he
      · intro _ e henh
        have htr2 : tr = [batchEv, ruleEv] := by
          have := fallbackToBatchAnalysisT_trace_error programs req llm now year e henh
          rw [hfb] at this
          exact this
        rcases ht with h | h <;> rw [h, htr2] <;> decide
    | cons r rs =>
      have ht : (analyzeFinalMatchesT programs req (.ok (r :: rs)) llm now year).2 =
          [assistantEv] ∨
          (analyzeFinalMatchesT programs req (.ok (r :: rs)) llm now year).2 =
          [assistantEv, ruleEv] := by
        unfold analyzeFinalMatchesT
        rw [hpe]
        simp only [Bool.false_eq_true, if_false, searchAndAnalyzeWithAssistant, Except.map,
          List.map_cons, List.isEmpty_cons, Bool.not_false, if_true]
        split
        · exact Or.inl rfl
        · exact Or.inr rfl
      refine ⟨?_, ?_, ?_⟩
      · constructor
        · intro hb
          exfalso
          rcases ht with h | h <;> rw [h] at hb <;> exact absurd hb (by decide)
        · intro hok
          simp at hok
      · intro e he
        simp at he
      · intro hok
        simp at hok

/-- C2 witness: the amended tier structure evaluated at a concrete non-empty input
with Tier 1 returning an empty result, discharging the non-emptiness hypothesis. -/
theorem tier_fallback_structure_witness :
    batchEv ∈
      (analyzeFinalMatchesT [mpBase] reqStartup (.ok []) (fun _ => .error ())
        0 2025).2 := by
  exact (tier_fallback_structure [mpBase] reqStartup (.ok []) (fun _ => .error ())
    0 2025 (by simp)).1.mpr rfl

theorem getExpectedAmountRange_pos (req : MatchingRequest) :
    0 < (getExpectedAmountRange req).1 ∧
    (getExpectedAmountRange req).1 ≤ (getExpectedAmountRange req).2 := by
  unfold getExpectedAmountRange
  dsimp only
  split_ifs <;> norm_num

/-- C9: for two candidates identical except for amountMax — one within the profile's
expected amount range and the other ten times the expected-range ceiling — the
oversized candidate's amount sub-score is no higher than the in-range candidate's. -/
theorem amountScore_no_oversize_reward (p : ProgramWithProvider) (req : MatchingRequest)
    (v : ℚ) (h1 : (getExpectedAmountRange req).1 ≤ v)
    (h2 : v ≤ (getExpectedAmountRange req).2) :
    calculateAmountScore { p with amountMax := some (10 * (getExpectedAmountRange req).2) }
      req ≤
    calculateAmountScore { p with amountMax := some v } req := by
  obtain ⟨hpos, hle⟩ := getExpectedAmountRange_pos req
  have hv0 : 0 < v := lt_of_lt_of_le hpos h1
  have h2pos : 0 < (getExpectedAmountRange req).2 := lt_of_lt_of_le hpos hle
  have hvt : numTruthy (some v) = true := by
    simp only [numTruthy, bne_iff_ne, ne_eq]
    exact ne_of_gt hv0
  have hbt : numTruthy (some (10 * (getExpectedAmountRange req).2)) = true := by
    simp only [numTruthy, bne_iff_ne, ne_eq]
    positivity
  unfold calculateAmountScore
  dsimp only
  rw [hvt, hbt]
  simp only [Bool.not_true, Bool.and_false, Bool.false_and, Bool.false_eq_true, if_false,
    Option.getD_some]
  have hd1 : decide ((getExpectedAmountRange req).1 ≤ v) = true := decide_eq_true h1
  have hd2 : decide (v ≤ (getExpectedAmountRange req).2) = true := decide_eq_true h2
  have hd3 : decide ((getExpectedAmountRange req).1 ≤
      10 * (getExpectedAmountRange req).2) = true := by
    refine decide_eq_true ?_
    nlinarith
  have hd4 : decide (10 * (getExpectedAmountRange req).2 ≤
      (getExpectedAmountRange req).2) = false := by
    refine decide_eq_false ?_
    intro hcon
    nlinarith
  have hd5 : decide (10 * (getExpectedAmountRange req).2 <
      (getExpectedAmountRange req).1 * 0.1) = false := by
    refine decide_eq_false ?_
    intro hcon
    nlinarith
  have hd6 : decide (v < (getExpectedAmountRange req).1 * 0.1) = false := by
    refine decide_eq_false ?_
    intro hcon
    nlinarith
  simp only [hd1, hd2, hd3, hd4, hd5, hd6, Bool.and_true, Bool.and_false, Bool.true_and,
    Bool.false_and, Bool.false_eq_true, if_false, eq_self_iff_true, if_true]
  refine max_le_max (le_refl 0) (min_le_min (le_refl 1) ?_)
  linarith

/-- C9 witness: the comparison at a concrete profile (expected range 5M–30M), an
in-range amountMax of 10M against one of ten times the 30M ceiling. -/
theorem amountScore_no_oversize_reward_witness :
    calculateAmountScore
      { pwBase with amountMax := some (10 * (getExpectedAmountRange reqNoPurpose).2) }
      reqNoPurpose ≤
    calculateAmountScore { pwBase with amountMax := some 10000000 } reqNoPurpose := by
  exact amountScore_no_oversize_reward pwBase reqNoPurpose 10000000
    (by with_unfolding_all decide) (by with_unfolding_all decide)

theorem enhanceProgramsE_length (req : MatchingRequest) (now year : ℤ) :
    ∀ (ps : List MatchedProgram) (as_ : List MatchingAnalysis) (l : List MatchedProgram),
    enhanceProgramsE req now year ps as_ = .ok l → l.length = ps.length := by
  intro ps
  induction ps with
  | nil =>
    intro as_ l h
    unfold enhanceProgramsE at h
    simp only [Except.ok.injEq] at h
    rw [← h]
  | cons p ps ih =>
    intro as_ l h
    cases as_ with
    | cons a rest =>
      unfold enhanceProgramsE at h
      by_cases hc : a.confidence > 0.5
      · rw [if_pos hc] at h
        simp only [exceptOkBind] at h
        cases ht : enhanceProgramsE req now year ps rest with
        | error e => rw [ht] at h; simp only [exceptErrorBind] at h; simp at h
        | ok xs =>
          rw [ht] at h
          simp only [exceptOkBind, Except.ok.injEq] at h
          rw [← h]
          simp [ih rest xs ht]
      · rw [if_neg hc] at h
        cases hr : applyRuleBasedLogic p req now year with
        | error e => rw [hr] at h; simp only [exceptErrorBind] at h; simp at h
        | ok y =>
          rw [hr] at h
          simp only [exceptOkBind] at h
          cases ht : enhanceProgramsE req now year ps rest with
          | error e => rw [ht] at h; simp only [exceptErrorBind] at h; simp at h
          | ok xs =>
            rw [ht] at h
            simp only [exceptOkBind, Except.ok.injEq] at h
            rw [← h]
            simp [ih rest xs ht]
    | nil =>
      unfold enhanceProgramsE at h
      cases hr : applyRuleBasedLogic p req now year with
      | error e => rw [hr] at h; simp only [exceptErrorBind] at h; simp at h
      | ok y =>
        rw [hr] at h
        simp only [exceptOkBind] at h
        cases ht : enhanceProgramsE req now year ps [] with
        | error e => rw [ht] at h; simp only [exceptErrorBind] at h; simp at h
        | ok xs =>
          rw [ht] at h
          simp only [exceptOkBind, Except.ok.injEq] at h
          rw [← h]
          simp [ih [] xs ht]

/-- C10: when Tier 1 succeeds with k judgments for n input candidates and k < n, the
Reasoner pairs candidates and judgments positionally over the first k candidates only,
the confidence-gated enhancement list has length k, and each remaining candidate is
absent from the final ranking entirely. -/
theorem tier1_partial_judgment_pairing (programs : List MatchedProgram)
    (req : MatchingRequest) (raws : List RawAnalysis)
    (llm : MatchedProgram → Except Unit RawAnalysis) (now year : ℤ)
    (l enhanced : List MatchedProgram)
    (hk : raws.length < programs.length) (hne : raws ≠ [])
    (hnodup : (programs.map (fun p => p.id)).Nodup)
    (henh : enhanceProgramsE req now year (programs.take raws.length)
      (raws.map normalizeParsedItem) = .ok enhanced)
    (hres : analyzeFinalMatches programs req (.ok raws) llm now year = .ok l) :
    l = (sortBy scoreGe enhanced).take 10 ∧
    enhanced.length = raws.length ∧
    (∀ x ∈ l, x.id ∈ (programs.take raws.length).map (fun p => p.id)) ∧
    (∀ p2 ∈ programs.drop raws.length, p2.id ∉ l.map (fun x => x.id)) := by
  have hne2 : programs ≠ [] := by
    intro h0
    rw [h0] at hk
    simp at hk
  have hpe : programs.isEmpty = false := by simp [List.isEmpty_iff, hne2]
  have hmne : (List.map normalizeParsedItem raws).isEmpty = false := by
    cases raws with
    | nil => exact absurd rfl hne
    | cons r rs => simp
  unfold analyzeFinalMatches analyzeFinalMatchesT at hres
  rw [hpe] at hres
  simp only [Bool.false_eq_true, if_false, searchAndAnalyzeWithAssistant,
    Except.map] at hres
  rw [hmne] at hres
  simp only [Bool.not_false, eq_self_iff_true, if_true, List.length_map] at hres
  rw [min_eq_right (le_of_lt hk)] at hres
  rw [henh] at hres
  dsimp only at hres
  simp only [Except.ok.injEq] at hres
  have hids : ∀ x ∈ l, x.id ∈ (programs.take raws.length).map (fun p => p.id) := by
    intro x hx
    rw [← hres] at hx
    have hx2 : x ∈ enhanced :=
      mem_sortBy scoreGe x enhanced (List.mem_of_mem_take hx)
    have hok := enhanceProgramsE_ok req now year (programs.take raws.length)
      (raws.map normalizeParsedItem) enhanced henh ?_ x hx2
    · rcases hok.2 with ⟨p2, hp2, hpid⟩
      rw [hpid]
      exact List.mem_map_of_mem (fun p => p.id) hp2
    · intro a ha
      rcases List.mem_map.mp ha with ⟨r0, _, hr0⟩
      rw [← hr0]
      exact normalizeParsedItem_bounds r0
  refine ⟨hres.symm, ?_, hids, ?_⟩
  · have := enhanceProgramsE_length req now year (programs.take raws.length)
      (raws.map normalizeParsedItem) enhanced henh
    rw [this, List.length_take]
    exact min_eq_left (le_of_lt hk)
  · intro p2 hp2 hcon
    rcases List.mem_map.mp hcon with ⟨x, hx, hxid⟩
    have hx3 : x.id ∈ (programs.take raws.length).map (fun p => p.id) := hids x hx
    have hdisj : List.Disjoint ((programs.take raws.length).map (fun p => p.id))
        ((programs.drop raws.length).map (fun p => p.id)) := by
      apply List.disjoint_of_nodup_append
      rw [← List.map_append, List.take_append_drop]
      exact hnodup
    exact hdisj hx3 (by rw [hxid]; exact List.mem_map_of_mem (fun p => p.id) hp2)

/-- C10 witness: two candidates, one judgment; only the first candidate survives and
the second is dropped from the final ranking. -/
theorem tier1_partial_judgment_pairing_witness :
    [mpHigh] = (sortBy scoreGe [mpHigh]).take 10 ∧
    ([mpHigh] : List MatchedProgram).length = ([rawHigh] : List RawAnalysis).length ∧
    (∀ x ∈ [mpHigh], x.id ∈ ([mpBase, mpOther].take 1).map (fun p => p.id)) ∧
    (∀ p2 ∈ [mpBase, mpOther].drop 1, p2.id ∉ [mpHigh].map (fun x => x.id)) := by
  have h := tier1_partial_judgment_pairing [mpBase, mpOther] reqStartup [rawHigh]
    (fun _ => .error ()) 0 2025 [mpHigh] [mpHigh]
    (by decide) (by simp) (by decide)
    (by with_unfolding_all rfl) (by with_unfolding_all rfl)
  exact h

end GovMatch
